import Mathlib

/-!
Verification development for the asset-manager repository.

This file gives a shallow embedding, in Lean 4, of the algorithmic core of the
repository: the rebalancing engine (`src/services/rebalancing.ts`), the holding
matcher (`src/services/holdingMatcher.ts`), the two target-file parsers
(`src/parsers/targetExcelParser.ts` and `src/parsers/targetCsvParser.ts`), and
the vertical "Open Positions" sub-layout of the PDF statement parser
(`src/parsers/ibStatementParser.ts`).  JavaScript numbers are modelled as
rationals, JavaScript strings as Lean strings, and JavaScript `Map`s as
insertion-ordered association lists.  All definitions are computable and use
structural recursion only, so concrete runs reduce inside the kernel.
-/

set_option allowUnsafeReducibility true

attribute [semireducible] Rat.add Rat.mul Rat.inv Rat.sub Rat.ofScientific

namespace AssetManager

/-! ### JavaScript string primitives

The source manipulates strings with `toUpperCase`, `toLowerCase`, `trim`,
`includes`, `startsWith`, `split`, regex character tests and `parseFloat`.
These are modelled character-by-character below (ASCII case mapping, which is
all the source's inputs use).
-/

/-- ASCII uppercase mapping of one character (JavaScript `toUpperCase`). -/
def chUp (c : Char) : Char :=
  if 97 ≤ c.toNat ∧ c.toNat ≤ 122 then Char.ofNat (c.toNat - 32) else c

/-- ASCII lowercase mapping of one character (JavaScript `toLowerCase`). -/
def chDown (c : Char) : Char :=
  if 65 ≤ c.toNat ∧ c.toNat ≤ 90 then Char.ofNat (c.toNat + 32) else c

/-- JavaScript `String.prototype.toUpperCase` on ASCII input. -/
def jsToUpper (s : String) : String := ⟨s.data.map chUp⟩

/-- JavaScript `String.prototype.toLowerCase` on ASCII input. -/
def jsToLower (s : String) : String := ⟨s.data.map chDown⟩

/-- Whitespace for JavaScript `trim` / `parseFloat` (ASCII subset). -/
def jsIsSpace (c : Char) : Bool := c = ' ' ∨ c = '\t' ∨ c = '\n' ∨ c = '\r'

/-- JavaScript `String.prototype.trim`. -/
def jsTrim (s : String) : String :=
  ⟨((s.data.dropWhile jsIsSpace).reverse.dropWhile jsIsSpace).reverse⟩

/-- Regex class `[0-9]`. -/
def isDigitCh (c : Char) : Bool := 48 ≤ c.toNat ∧ c.toNat ≤ 57

/-- Regex class `[A-Z]`. -/
def isUpperCh (c : Char) : Bool := 65 ≤ c.toNat ∧ c.toNat ≤ 90

/-- Regex class `[A-Z0-9]`. -/
def isUpperAlnumCh (c : Char) : Bool := isUpperCh c || isDigitCh c

/-- JavaScript `String.prototype.startsWith`. -/
def strHasPre (s pat : String) : Bool := pat.data.isPrefixOf s.data

/-- Does `pat` occur as a contiguous segment of the character list? -/
def listContainsSeg (pat : List Char) : List Char → Bool
  | [] => pat.isEmpty
  | c :: rest => pat.isPrefixOf (c :: rest) || listContainsSeg pat rest

/-- JavaScript `String.prototype.includes`. -/
def strIncludes (s pat : String) : Bool := listContainsSeg pat.data s.data

/-- JavaScript `s.replace(/c/g, '')` for a single character `c`. -/
def removeAllCh (c : Char) (s : String) : String := ⟨s.data.filter (fun x => x != c)⟩

/-- Split a character list at every character satisfying `p`
(JavaScript `split` with a character-class regex). -/
def splitChP (p : Char → Bool) : List Char → List (List Char)
  | [] => [[]]
  | x :: xs =>
      match splitChP p xs with
      | h :: t => if p x then [] :: h :: t else (x :: h) :: t
      | [] => if p x then [[], []] else [[x]]

/-- JavaScript `String.prototype.split` with a character-class regex. -/
def strSplitP (p : Char → Bool) (s : String) : List String :=
  (splitChP p s.data).map (fun cs => ⟨cs⟩)

/-- Numeric value of a list of decimal digit characters. -/
def digitsToNat (ds : List Char) : ℕ := ds.foldl (fun a c => 10 * a + (c.toNat - 48)) 0

/-- The rational `n / 1`, constructed directly (kernel-friendly constant-depth
alternative to the `Nat.cast` coercion, to which it is provably equal). -/
def qnat (n : ℕ) : ℚ := ⟨Int.ofNat n, 1, Nat.one_ne_zero, Nat.coprime_one_right _⟩

theorem qnat_eq_cast (n : ℕ) : qnat n = (n : ℚ) := by
  refine Rat.ext ?_ ?_ <;> simp [qnat]

/-- Powers of ten as rationals. -/
def pow10 : ℕ → ℚ
  | 0 => 1
  | n + 1 => 10 * pow10 n

/-- Digits of a decimal exponent ( helper for `jsParseFloat`). -/
def expDigits (cs : List Char) : Option ℤ :=
  let ds := cs.takeWhile isDigitCh
  if ds.isEmpty then none else some (digitsToNat ds : ℤ)

/-- Signed decimal exponent ( helper for `jsParseFloat`). -/
def expValue : List Char → Option ℤ
  | '+' :: r => expDigits r
  | '-' :: r => (expDigits r).map (fun n => -n)
  | r => expDigits r

/-- Scale a mantissa by `10 ^ e` for a signed exponent `e`. -/
def scaleByExp (mant : ℚ) : ℤ → ℚ
  | Int.ofNat n => mant * pow10 n
  | Int.negSucc n => mant / pow10 (n + 1)

/-- Apply a trailing `e±ddd` exponent to a mantissa, ignoring a malformed
exponent exactly as JavaScript `parseFloat` does. -/
def applyExp (mant : ℚ) (cs : List Char) : ℚ :=
  match cs with
  | 'e' :: r => match expValue r with | some e => scaleByExp mant e | none => mant
  | 'E' :: r => match expValue r with | some e => scaleByExp mant e | none => mant
  | _ => mant

/-- Unsigned part of JavaScript `parseFloat`: longest prefix of the form
`digits [. digits] [exponent]`; `none` when no digit is found (NaN). -/
def jsParseUnsigned (cs : List Char) : Option ℚ :=
  let ip := cs.takeWhile isDigitCh
  let r1 := cs.dropWhile isDigitCh
  match r1 with
  | '.' :: r2 =>
      let fp := r2.takeWhile isDigitCh
      let r3 := r2.dropWhile isDigitCh
      if ip.isEmpty ∧ fp.isEmpty then none
      else some (applyExp (qnat (digitsToNat ip) + qnat (digitsToNat fp) / pow10 fp.length) r3)
  | _ =>
      if ip.isEmpty then none
      else some (applyExp (qnat (digitsToNat ip)) r1)

/-- JavaScript `parseFloat`: skip leading whitespace, optional sign, then the
longest decimal-literal prefix; `none` models NaN.  (`Infinity` literals never
occur in the statement texts and are not modelled.) -/
def jsParseFloat (s : String) : Option ℚ :=
  match s.data.dropWhile jsIsSpace with
  | '+' :: r => jsParseUnsigned r
  | '-' :: r => (jsParseUnsigned r).map (fun q => -q)
  | r => jsParseUnsigned r

/-! ### Insertion-ordered association lists (JavaScript `Map`) -/

/-- `Map.prototype.get`. -/
def alGet {α : Type} : List (String × α) → String → Option α
  | [], _ => none
  | (k2, v) :: rest, k => if k2 = k then some v else alGet rest k

/-- `Map.prototype.set`: overwrite in place if the key exists, else append,
preserving insertion order. -/
def alSet {α : Type} : List (String × α) → String → α → List (String × α)
  | [], k, v => [(k, v)]
  | (k2, w) :: rest, k, v => if k2 = k then (k2, v) :: rest else (k2, w) :: alSet rest k v

/-! ### Stable sorting (JavaScript `Array.prototype.sort`)

The source sorts with numeric comparators that induce total preorders; for
such comparators every stable sort computes the same list, so a stable
insertion sort is a faithful model of the engine's sort.
-/

/-- Insert `x` after every element `y` with `le y x` (stable insertion). -/
def insertBy {α : Type} (le : α → α → Bool) (x : α) : List α → List α
  | [] => [x]
  | y :: ys => if le y x then y :: insertBy le x ys else x :: y :: ys

/-- Stable insertion sort by the boolean preorder `le`. -/
def sortBy {α : Type} (le : α → α → Bool) (l : List α) : List α :=
  l.foldl (fun acc x => insertBy le x acc) []

/-! ### Truthiness of optional strings -/

/-- JavaScript truthiness of a possibly-absent string field. -/
def optTruthy : Option String → Bool
  | some s => s ≠ ""
  | none => false

/-- JavaScript `a || b` on optional strings. -/
def jsOrStr (a b : Option String) : Option String := if optTruthy a then a else b

/-! ### Data model (src/src/db/schema.ts)

Only the fields the core reads are modelled; numeric columns are rationals.
-/

/-- A holding row.  `asset_type` is a required column; `isin` and
`asset_category` are nullable. -/
structure Holding where
  symbol : String
  isin : Option String := none
  asset_type : String := "Stock"
  asset_category : Option String := none
  quantity : ℚ := 0
  price : ℚ := 0
  value_usd : ℚ := 0
deriving Repr, DecidableEq

/-- A target-allocation row.  `alternative_tickers` is stored JSON-encoded in a
text column; following the design notes it is modelled as the decoded list of
strings. -/
structure TargetAllocation where
  id : Option ℤ := none
  asset_type : String := "Stock"
  asset_category : Option String := none
  symbol : Option String := none
  alternative_tickers : List String := []
  isin : Option String := none
  target_percentage : ℚ := 0
deriving Repr, DecidableEq

/-! ### Rebalancing engine (src/services/rebalancing.ts) -/

/-- Status values `'needs_buy' | 'needs_sell' | 'balanced'`. -/
inductive PosStatus
  | needs_buy
  | needs_sell
  | balanced
deriving Repr, DecidableEq

/-- Action discriminator `'BUY' | 'SELL' | 'OK'`. -/
inductive ActionKind
  | BUY
  | SELL
  | OK
deriving Repr, DecidableEq

/-- The `RebalancingAction` interface. -/
structure RebalancingAction where
  symbol : String
  action : ActionKind
  quantity : ℚ
  amount : ℚ
  currentAllocation : ℚ
  targetAllocation : ℚ
  deviation : ℚ
  status : PosStatus
deriving Repr, DecidableEq

/-- The `AssetStatus` interface. -/
structure AssetStatus where
  symbol : String
  currentAllocation : ℚ
  targetAllocation : ℚ
  deviation : ℚ
  status : PosStatus
  currentValue : ℚ
  targetValue : ℚ
  adjustmentNeeded : ℚ
  mappedTargetSymbol : Option String
  assetType : String
deriving Repr, DecidableEq

/-- The `RebalancingPlan` interface. -/
structure RebalancingPlan where
  actions : List RebalancingAction
  allAssets : List AssetStatus
  totalValue : ℚ
  totalBuy : ℚ
  totalSell : ℚ
  netCashNeeded : ℚ
deriving Repr, DecidableEq

/-- Key `` `${asset_type}|${asset_category || ''}` `` used by both category maps. -/
def categoryKey (ty : String) (cat : Option String) : String := ty ++ "|" ++ cat.getD ""

/-- First loop of `calculateRebalancing`: build the ticker-level and the
category-level target-percentage maps. -/
def buildTargetMaps (targets : List TargetAllocation) :
    List (String × ℚ) × List (String × ℚ) :=
  targets.foldl
    (fun maps t =>
      let tm := maps.1
      let cm := maps.2
      if optTruthy t.symbol then
        let tm := alSet tm (jsToUpper (t.symbol.getD "")) t.target_percentage
        let tm := t.alternative_tickers.foldl
          (fun tm alt => if alt ≠ "" then alSet tm (jsToUpper alt) t.target_percentage else tm) tm
        (tm, cm)
      else
        (tm, alSet cm (categoryKey t.asset_type t.asset_category) t.target_percentage))
    ([], [])

/-- One aggregated entry of the `tickerAllocations` map. -/
structure TickerAlloc where
  holding : Holding
  allocation : ℚ
  mappedSymbol : Option String
deriving Repr, DecidableEq

/-- Current allocation percentage of one holding: `value_usd / totalValue * 100`. -/
def allocPct (totalValue : ℚ) (h : Holding) : ℚ := h.value_usd / totalValue * 100

/-- The override-mapped symbol of a holding (`symbolMappings?.get(...)` with
JavaScript falsiness of the looked-up string). -/
def effMapped (symbolMappings : List (String × String)) (h : Holding) : Option String :=
  match alGet symbolMappings (jsToUpper h.symbol) with
  | some s => if s ≠ "" then some s else none
  | none => none

/-- The effective symbol a holding aggregates under:
`mappedSymbol || holdingSymbol`. -/
def effKey (symbolMappings : List (String × String)) (h : Holding) : String :=
  (effMapped symbolMappings h).getD (jsToUpper h.symbol)

/-- Body of the aggregation loop of `calculateRebalancing` for one holding. -/
def tickerAllocStep (symbolMappings : List (String × String)) (totalValue : ℚ)
    (m : List (String × TickerAlloc)) (h : Holding) : List (String × TickerAlloc) :=
  if jsToUpper h.symbol = "CASH" then m
  else
    let allocation := allocPct totalValue h
    let mappedSymbol := effMapped symbolMappings h
    let keySymbol := effKey symbolMappings h
    match alGet m keySymbol with
    | some e => alSet m keySymbol { e with allocation := e.allocation + allocation }
    | none => alSet m keySymbol
        { holding := h, allocation := allocation, mappedSymbol := mappedSymbol }

/-- Second loop of `calculateRebalancing`: aggregate current allocation per
effective symbol, skipping `CASH` holdings; when a key repeats, only the
`allocation` field is accumulated (the stored `holding` stays the first one). -/
def buildTickerAllocations (holdings : List Holding)
    (symbolMappings : List (String × String)) (totalValue : ℚ) :
    List (String × TickerAlloc) :=
  holdings.foldl (tickerAllocStep symbolMappings totalValue) []

/-- Target-percentage resolution for one entry: ticker-level by effective
symbol, then ticker-level by the original holding symbol, then category-level;
the boolean is the `hasAnyTarget` flag. -/
def resolveTarget (tm cm : List (String × ℚ)) (symbol : String) (e : TickerAlloc) :
    Bool × ℚ :=
  let targetSymbol := e.mappedSymbol.getD symbol
  let tp := match alGet tm targetSymbol with
    | some v => some v
    | none => alGet tm (jsToUpper e.holding.symbol)
  match tp with
  | some v => (true, v)
  | none =>
      match alGet cm (categoryKey e.holding.asset_type e.holding.asset_category) with
      | some v => (true, v)
      | none => (false, 0)

/-- Body of the main loop of `calculateRebalancing` for one entry: the
`AssetStatus` pushed to `allAssets`, the optional action pushed to `actions`,
and the amounts added to `totalBuy` and `totalSell`. -/
def processEntry (tm cm : List (String × ℚ)) (totalValue tolerance : ℚ)
    (symbol : String) (e : TickerAlloc) :
    AssetStatus × Option RebalancingAction × ℚ × ℚ :=
  let res := resolveTarget tm cm symbol e
  let hasAnyTarget := res.1
  let targetPct := res.2
  let currentPct := e.allocation
  let currentValue := e.holding.value_usd
  let targetValue := targetPct / 100 * totalValue
  let deviation := currentPct - targetPct
  let adjustmentNeeded := targetValue - currentValue
  let status : PosStatus :=
    if hasAnyTarget = false ∧ targetPct = 0 ∧ 0 < currentPct then .needs_sell
    else if targetPct = 0 ∧ currentPct = 0 then .balanced
    else if |deviation| ≤ tolerance then .balanced
    else if deviation < 0 then .needs_buy
    else .needs_sell
  let asset : AssetStatus :=
    { symbol := e.holding.symbol
      currentAllocation := currentPct
      targetAllocation := targetPct
      deviation := deviation
      status := status
      currentValue := currentValue
      targetValue := targetValue
      adjustmentNeeded := adjustmentNeeded
      mappedTargetSymbol := e.mappedSymbol
      assetType := e.holding.asset_type }
  let rest : Option RebalancingAction × ℚ × ℚ :=
    if (0 < targetPct ∧ tolerance < |deviation|) ∨
        (hasAnyTarget = false ∧ targetPct = 0 ∧ 0 < currentPct) then
      if hasAnyTarget = false ∧ targetPct = 0 ∧ 0 < currentPct then
        (some { symbol := e.holding.symbol, action := .SELL,
                quantity := currentValue / e.holding.price, amount := currentValue,
                currentAllocation := currentPct, targetAllocation := targetPct,
                deviation := currentPct, status := .needs_sell },
         0, currentValue)
      else if 0 < adjustmentNeeded then
        (some { symbol := e.holding.symbol, action := .BUY,
                quantity := adjustmentNeeded / e.holding.price, amount := adjustmentNeeded,
                currentAllocation := currentPct, targetAllocation := targetPct,
                deviation := -deviation, status := .needs_buy },
         adjustmentNeeded, 0)
      else
        (some { symbol := e.holding.symbol, action := .SELL,
                quantity := |adjustmentNeeded| / e.holding.price, amount := |adjustmentNeeded|,
                currentAllocation := currentPct, targetAllocation := targetPct,
                deviation := deviation, status := .needs_sell },
         0, |adjustmentNeeded|)
    else (none, 0, 0)
  (asset, rest)

/-- Sort key `statusOrder = { needs_buy: 0, needs_sell: 1, balanced: 2 }`. -/
def statusOrder : PosStatus → ℕ
  | .needs_buy => 0
  | .needs_sell => 1
  | .balanced => 2

/-- Comparator for `actions`: descending absolute deviation. -/
def actionLe (a b : RebalancingAction) : Bool := decide (|b.deviation| ≤ |a.deviation|)

/-- Comparator for `allAssets`: status priority, then descending absolute
deviation. -/
def assetLe (a b : AssetStatus) : Bool :=
  if statusOrder a.status ≠ statusOrder b.status
  then decide (statusOrder a.status ≤ statusOrder b.status)
  else decide (|b.deviation| ≤ |a.deviation|)

/-- The per-entry outputs of the main loop of `calculateRebalancing`, in
aggregation order. -/
def crOuts (holdings : List Holding) (targets : List TargetAllocation)
    (totalValue tolerance : ℚ) (symbolMappings : List (String × String)) :
    List (AssetStatus × Option RebalancingAction × ℚ × ℚ) :=
  (buildTickerAllocations holdings symbolMappings totalValue).map
    (fun p => processEntry (buildTargetMaps targets).1 (buildTargetMaps targets).2
      totalValue tolerance p.1 p.2)

/-- The exported `calculateRebalancing` function.  The optional
`symbolMappings` parameter is modelled as a plain association list (absence is
the empty list). -/
def calculateRebalancing (holdings : List Holding) (targets : List TargetAllocation)
    (totalValue : ℚ) (tolerance : ℚ) (symbolMappings : List (String × String)) :
    RebalancingPlan :=
  { actions := sortBy actionLe
      ((crOuts holdings targets totalValue tolerance symbolMappings).filterMap (fun o => o.2.1))
    allAssets := sortBy assetLe
      ((crOuts holdings targets totalValue tolerance symbolMappings).map (fun o => o.1))
    totalValue := totalValue
    totalBuy := (crOuts holdings targets totalValue tolerance symbolMappings).foldl
      (fun s o => s + o.2.2.1) 0
    totalSell := (crOuts holdings targets totalValue tolerance symbolMappings).foldl
      (fun s o => s + o.2.2.2) 0
    netCashNeeded :=
      (crOuts holdings targets totalValue tolerance symbolMappings).foldl
        (fun s o => s + o.2.2.1) 0 -
      (crOuts holdings targets totalValue tolerance symbolMappings).foldl
        (fun s o => s + o.2.2.2) 0 }

/-- Total portfolio value as computed by the caller in
`src/routes/rebalancing.ts`: the sum of `value_usd` over ALL latest holdings
(no filtering of `CASH` rows). -/
def routeTotalValue (holdings : List Holding) : ℚ :=
  holdings.foldl (fun s h => s + h.value_usd) 0

/-- The rebalancing route's call: `calculateRebalancing` applied to the
caller-computed total value. -/
def rebalancingRoutePlan (holdings : List Holding) (targets : List TargetAllocation)
    (tolerance : ℚ) (symbolMappings : List (String × String)) : RebalancingPlan :=
  calculateRebalancing holdings targets (routeTotalValue holdings) tolerance symbolMappings

/-! ### Holding matcher (src/services/holdingMatcher.ts) -/

/-- Match discriminator `'exact_symbol' | 'exact_isin' | 'category' | 'none'`. -/
inductive MatchType
  | exact_symbol
  | exact_isin
  | category
  | none
deriving Repr, DecidableEq

/-- A matched holding: the holding re-tagged with the target's asset type and
category, the matched target's id, and the match type. -/
structure MatchedHolding extends Holding where
  matchedTargetId : Option ℤ
  matchType : MatchType
deriving Repr, DecidableEq

/-- One entry of `suggestedMatches`. -/
structure Suggestion where
  target : TargetAllocation
  matchScore : ℚ
  matchReason : String
deriving Repr, DecidableEq

/-- An unmatched holding with its ranked suggestions and inferred asset type. -/
structure UnmatchedHolding where
  holding : Holding
  suggestedMatches : List Suggestion
  suggestedAssetType : String
deriving Repr, DecidableEq

/-- The three lookup maps built by `matchHoldingsToTargets`. -/
structure MatcherMaps where
  bySymbol : List (String × TargetAllocation)
  byIsin : List (String × TargetAllocation)
  byCategory : List (String × List TargetAllocation)
deriving Repr

/-- First loop of `matchHoldingsToTargets`: build symbol, ISIN and category
lookup maps.  Category-level targets are those with no (truthy) symbol and an
empty alternative-ticker list. -/
def buildMatcherMaps (targets : List TargetAllocation) : MatcherMaps :=
  targets.foldl
    (fun maps t =>
      let alts := t.alternative_tickers
      let bySym :=
        if optTruthy t.symbol then alSet maps.bySymbol (jsToUpper (t.symbol.getD "")) t
        else maps.bySymbol
      let bySym := alts.foldl (fun m alt => if alt ≠ "" then alSet m (jsToUpper alt) t else m) bySym
      let byIs :=
        if optTruthy t.isin then alSet maps.byIsin (jsToUpper (t.isin.getD "")) t
        else maps.byIsin
      let byCat :=
        if optTruthy t.symbol = false ∧ alts.length = 0 then
          let key := categoryKey t.asset_type t.asset_category
          match alGet maps.byCategory key with
          | some l => alSet maps.byCategory key (l ++ [t])
          | Option.none => alSet maps.byCategory key [t]
        else maps.byCategory
      { bySymbol := bySym, byIsin := byIs, byCategory := byCat })
    { bySymbol := [], byIsin := [], byCategory := [] }

/-- Score one target against an unmatched holding (`findSuggestedMatches` loop
body); `none` when the score is 0 and the target is not suggested. -/
def suggestionFor (h : Holding) (t : TargetAllocation) : Option Suggestion :=
  let s0 : ℚ := 0
  let r0 : String := ""
  let p1 :=
    if h.symbol ≠ "" ∧ optTruthy t.symbol then
      let hs := jsToUpper h.symbol
      let ts := jsToUpper (t.symbol.getD "")
      if hs = ts then (s0 + 100, "Exact symbol match")
      else if strIncludes hs ts || strIncludes ts hs then (s0 + 50, "Partial symbol match")
      else (s0, r0)
    else (s0, r0)
  let p2 :=
    if optTruthy h.isin ∧ optTruthy t.isin then
      if jsToUpper (h.isin.getD "") = jsToUpper (t.isin.getD "") then (p1.1 + 100, "Exact ISIN match")
      else p1
    else p1
  let p3 :=
    if optTruthy h.asset_category ∧ optTruthy t.asset_category then
      if jsToLower (h.asset_category.getD "") = jsToLower (t.asset_category.getD "") then
        (p2.1 + 30, if p2.2 ≠ "" then p2.2 ++ ", category match" else "Category match")
      else p2
    else p2
  if 0 < p3.1 then some { target := t, matchScore := p3.1, matchReason := p3.2 } else Option.none

/-- Comparator for suggestions: descending score. -/
def suggLe (a b : Suggestion) : Bool := decide (b.matchScore ≤ a.matchScore)

/-- The `findSuggestedMatches` helper: scored targets, sorted descending, top 5. -/
def findSuggestedMatches (h : Holding) (targets : List TargetAllocation) : List Suggestion :=
  (sortBy suggLe (targets.filterMap (suggestionFor h))).take 5

/-- The `inferAssetType` heuristic for unmatched holdings. -/
def inferAssetType (h : Holding) : String :=
  let symbol := jsToUpper h.symbol
  let category := jsToLower (h.asset_category.getD "")
  if strIncludes symbol "BTC" || strIncludes symbol "ETH" || symbol = "COIN" || symbol = "GBTC"
  then "Crypto"
  else if strIncludes symbol "BND" || strIncludes symbol "TIP" || strIncludes symbol "AGG" ||
      strIncludes category "bond" then "Bond"
  else if strIncludes symbol "REIT" || strIncludes symbol "VNQ" || strIncludes symbol "REET" ||
      strIncludes category "reit" || strIncludes category "real estate" then "REIT"
  else if strIncludes symbol "GLD" || strIncludes symbol "SLV" || strIncludes symbol "USAG" ||
      strIncludes category "commodity" || strIncludes category "gold" ||
      strIncludes category "silver" then "Commodity"
  else if strIncludes category "cash" || strIncludes category "money market" ||
      strIncludes symbol "SGOV" || strIncludes symbol "CSH" then "Cash"
  else "Stock"

/-- Per-holding body of the matcher loop: symbol match first, then ISIN (only
if symbol failed), then first category target (only if both failed). -/
def matchOneHolding (maps : MatcherMaps) (targets : List TargetAllocation) (h : Holding) :
    Sum MatchedHolding UnmatchedHolding :=
  let m1 : Option (TargetAllocation × MatchType) :=
    if h.symbol ≠ "" then
      match alGet maps.bySymbol (jsToUpper h.symbol) with
      | some t => some (t, .exact_symbol)
      | Option.none => Option.none
    else Option.none
  let m2 :=
    match m1 with
    | some r => some r
    | Option.none =>
        if optTruthy h.isin then
          match alGet maps.byIsin (jsToUpper (h.isin.getD "")) with
          | some t => some (t, .exact_isin)
          | Option.none => Option.none
        else Option.none
  let m3 :=
    match m2 with
    | some r => some r
    | Option.none =>
        match alGet maps.byCategory (categoryKey h.asset_type h.asset_category) with
        | some (t :: _) => some (t, .category)
        | _ => Option.none
  match m3 with
  | some (t, mt) =>
      .inl { toHolding :=
               { h with asset_type := t.asset_type
                        asset_category := jsOrStr t.asset_category h.asset_category }
             matchedTargetId := t.id
             matchType := mt }
  | Option.none =>
      .inr { holding := h
             suggestedMatches := findSuggestedMatches h targets
             suggestedAssetType := inferAssetType h }

/-- The exported `matchHoldingsToTargets` function. -/
def matchHoldingsToTargets (holdings : List Holding) (targets : List TargetAllocation) :
    List MatchedHolding × List UnmatchedHolding :=
  let maps := buildMatcherMaps targets
  let outs := holdings.map (matchOneHolding maps targets)
  (outs.filterMap (fun o => match o with | .inl m => some m | .inr _ => Option.none),
   outs.filterMap (fun o => match o with | .inl _ => Option.none | .inr u => some u))

/-! ### Target-file parsers

`parseTargetExcel` (src/parsers/targetExcelParser.ts) and `parseTargetCsv`
(the CSV target parser).  The Excel parser is modelled from the point where the
XLSX library has produced the sheet as a row-major list of cell strings
(`XLSX.utils.sheet_to_json` with `header: 1, defval: ''`; the `String(...)`
coercion in the source makes every cell a string); reading the workbook itself
is external-library behaviour.
-/

/-- The `ExcelTargetRow` interface. -/
structure ExcelTargetRow where
  assetType : String
  assetCategory : Option String
  instrument : String
  isin : Option String
  ticker : Option String
  targetPercentage : ℚ
deriving Repr, DecidableEq

/-- The `ParsedTargetsResult` interface. -/
structure ParsedTargetsResult where
  targets : List ExcelTargetRow
  warnings : List String
  errors : List String
deriving Repr, DecidableEq

/-- The `CsvTargetRow` interface. -/
structure CsvTargetRow where
  assetType : String
  assetCategory : Option String
  instrument : Option String
  isin : Option String
  mainTicker : Option String
  otherTickers : Option (List String)
  targetPercentage : ℚ
deriving Repr, DecidableEq

/-- The `ParsedCsvTargetsResult` interface. -/
structure ParsedCsvTargetsResult where
  targets : List CsvTargetRow
  warnings : List String
  errors : List String
deriving Repr, DecidableEq

/-- The `normalizeAssetType` helper (identical in both parser files). -/
def normalizeAssetType (assetType : String) : String :=
  let normalized := jsTrim assetType
  let lower := jsToLower normalized
  if strIncludes lower "share" || strIncludes lower "stock" then "Stock"
  else if strIncludes lower "bond" then "Bond"
  else if strIncludes lower "money market" || strIncludes lower "cash" then "Cash"
  else if strIncludes lower "commodit" then "Commodity"
  else if strIncludes lower "reit" || strIncludes lower "real estate" then "REIT"
  else if strIncludes lower "crypto" then "Crypto"
  else normalized

/-- The `VALID_CATEGORIES` record of the Excel parser. -/
def validCategoriesFor (ty : String) : List String :=
  if ty = "Shares" then
    ["US Stock market", "World stock market (no US)", "EU", "Global World Market",
     "Emerging Markets"]
  else if ty = "Money Markets Funds" then
    ["Money Markets Funds", "Money Markets Funds / Short terms bond", "Short Term Bonds"]
  else if ty = "Bonds" then
    ["Medium Term Government Bonds (ETF)", "Corporate Bonds", "Long Term Government Bonds",
     "Inflation Linked Bonds"]
  else if ty = "Commodities" then ["Gold", "Silver", "Crypto", "Other Commodities"]
  else if ty = "REIT" then ["REIT (US)", "REIT (Global)", "REIT (EU)"]
  else if ty = "Stock" then
    ["US Stock market", "World stock market (no US)", "EU", "Global World Market",
     "Emerging Markets"]
  else if ty = "Cash" then ["Money Markets Funds", "Short Term Bonds"]
  else if ty = "Crypto" then ["Crypto"]
  else []

/-- Join a string list with `", "` (JavaScript `Array.prototype.join(', ')`). -/
def joinComma : List String → String
  | [] => ""
  | [s] => s
  | s :: rest => s ++ ", " ++ joinComma rest

/-- Two-decimal rendering of a rational (JavaScript `Number.prototype.toFixed(2)`,
ties rounded up). -/
def ratToFixed2 (q : ℚ) : String :=
  let n : ℤ := ⌊q * 100 + 1 / 2⌋
  let a := n.natAbs
  (if n < 0 then "-" else "") ++ toString (a / 100) ++ "." ++
    (if a % 100 < 10 then "0" else "") ++ toString (a % 100)

/-- The shared total-percentage consistency warning of both parsers. -/
def totalPctWarning (total : ℚ) : Option String :=
  if 1 / 100 < |total - 100| then
    some ("Total target allocation is " ++ ratToFixed2 total ++
      "%, not 100%. This may be intentional if some categories are excluded.")
  else none

/-- Outcome of processing one data row: silently skipped, one error string, or
one parsed target (with at most one warning). -/
inductive RowOut (ρ : Type)
  | skip
  | err (e : String)
  | ok (t : ρ) (warning : Option String)
deriving Repr, DecidableEq

/-- Target produced by a row, if any. -/
def rowOutTarget {ρ : Type} : RowOut ρ → Option ρ
  | .ok t _ => some t
  | _ => none

/-- Error produced by a row, if any. -/
def rowOutErr {ρ : Type} : RowOut ρ → Option String
  | .err e => some e
  | _ => none

/-- Warning produced by a row, if any. -/
def rowOutWarning {ρ : Type} : RowOut ρ → Option String
  | .ok _ w => w
  | _ => none

/-- Header-column indices found by the Excel parser (`-1` becomes `none`). -/
structure ExcelHeaderMap where
  assetType : ℕ
  assetCategory : Option ℕ
  instrument : Option ℕ
  isin : Option ℕ
  ticker : Option ℕ
  percentage : ℕ
deriving Repr, DecidableEq

/-- Normalisation applied to each header cell: `String(cell || '').toLowerCase().trim()`. -/
def excelHeaderCell (cell : String) : String := jsTrim (jsToLower cell)

/-- Predicate for the Asset Type header column. -/
def isAssetTypeHeader (c : String) : Bool :=
  strIncludes c "asset type" || strIncludes c "assettype" || c = "asset type"

/-- Predicate for the Asset Category header column. -/
def isAssetCategoryHeader (c : String) : Bool :=
  strIncludes c "asset category" || strIncludes c "assetcategory" || c = "asset category"

/-- Predicate for the percentage header column. -/
def isPercentHeader (c : String) : Bool :=
  strIncludes c "%" || strIncludes c "percent" || strIncludes c "target" ||
    strIncludes c "target holding" || c = "% target holding"

/-- Predicate for the Instrument header column. -/
def isInstrumentHeader (c : String) : Bool :=
  strIncludes c "instrument" || strIncludes c "fund" || c = "instrument"

/-- Predicate for the ISIN header column. -/
def isIsinHeader (c : String) : Bool := strIncludes c "isin" || c = "isin"

/-- Predicate for the Ticker header column. -/
def isTickerHeader (c : String) : Bool :=
  strIncludes c "ticker" || strIncludes c "symbol" || c = "ticker"

/-- Try to read one row as the header row of the Excel target file. -/
def excelHeaderOfRow (row : List String) : Option ExcelHeaderMap :=
  let r := row.map excelHeaderCell
  match r.findIdx? isAssetTypeHeader, r.findIdx? isPercentHeader with
  | some aIdx, some pIdx =>
      some { assetType := aIdx
             assetCategory := r.findIdx? isAssetCategoryHeader
             instrument := r.findIdx? isInstrumentHeader
             isin := r.findIdx? isIsinHeader
             ticker := r.findIdx? isTickerHeader
             percentage := pIdx }
  | _, _ => none

/-- Search the first `min 5 data.length` rows for a header row. -/
def findExcelHeaderAux : ℕ → List (List String) → Option (ℕ × ExcelHeaderMap)
  | _, [] => none
  | i, row :: rest =>
      if i < 5 then
        match excelHeaderOfRow row with
        | some hm => some (i, hm)
        | none => findExcelHeaderAux (i + 1) rest
      else none

/-- Header detection of the Excel parser. -/
def findExcelHeader (data : List (List String)) : Option (ℕ × ExcelHeaderMap) :=
  findExcelHeaderAux 0 data

/-- Cell access `row[i]` with JavaScript `undefined`/empty coalescing to `""`. -/
def cellAt (row : List String) (i : ℕ) : String := row.getD i ""

/-- Cell access `row[i]` as interpolated into a template literal
(JavaScript prints the literal string `undefined` for a missing cell). -/
def cellAtU (row : List String) (i : ℕ) : String :=
  match row.get? i with
  | some c => c
  | none => "undefined"

/-- Raw percentage string of an Excel row: `String(cell || '0')` with `%`
characters removed, trimmed. -/
def excelRawPct (hm : ExcelHeaderMap) (row : List String) : String :=
  let c := cellAt row hm.percentage
  jsTrim (removeAllCh '%' (if c = "" then "0" else c))

/-- Parsed-and-normalised percentage of an Excel row: values strictly between
0 and 1 are scaled by 100; `none` models NaN. -/
def excelPct (hm : ExcelHeaderMap) (row : List String) : Option ℚ :=
  (jsParseFloat (excelRawPct hm row)).map (fun p => if 0 < p ∧ p < 1 then p * 100 else p)

/-- The Excel parser's empty-row test: every cell is falsy or trims to `""`. -/
def excelRowBlank (row : List String) : Bool := row.all (fun c => c = "" || jsTrim c = "")

/-- The per-row asset-category vocabulary warning of the Excel parser. -/
def excelCategoryWarning (rowNum : ℕ) (assetType assetCategory : String) : Option String :=
  let normalizedAssetType := normalizeAssetType assetType
  if assetCategory ≠ "" then
    let valid := validCategoriesFor normalizedAssetType
    let normalizedCategory := jsTrim (jsToLower assetCategory)
    let isValid := valid.any (fun cat => jsTrim (jsToLower cat) = normalizedCategory)
    if isValid = false ∧ 0 < valid.length then
      some ("Row " ++ toString rowNum ++ ": Asset category \"" ++ assetCategory ++ "\" for \"" ++
        assetType ++ "\" may not match common categories. Expected: " ++ joinComma valid)
    else none
  else none

/-- Body of the Excel parser's data-row loop for the row at 0-based sheet
index `i` (error strings therefore name row `i + 1`). -/
def excelProcessRow (hm : ExcelHeaderMap) (i : ℕ) (row : List String) : RowOut ExcelTargetRow :=
  if excelRowBlank row then .skip
  else
    let assetType := jsTrim (cellAt row hm.assetType)
    let assetCategory := match hm.assetCategory with
      | some ci => jsTrim (cellAt row ci)
      | none => ""
    if assetType = "" then .err ("Row " ++ toString (i + 1) ++ ": Missing Asset Type")
    else
      match excelPct hm row with
      | none =>
          .err ("Row " ++ toString (i + 1) ++ ": Invalid percentage (" ++
            cellAtU row hm.percentage ++ ")")
      | some p =>
          if p < 0 ∨ 100 < p then
            .err ("Row " ++ toString (i + 1) ++ ": Invalid percentage (" ++
              cellAtU row hm.percentage ++ ")")
          else if p = 0 then .skip
          else
            let warning := excelCategoryWarning (i + 1) assetType assetCategory
            let instrument := match hm.instrument with
              | some ii => jsTrim (cellAt row ii)
              | none => ""
            let isin := match hm.isin with
              | some ii => let v := jsTrim (cellAt row ii); if v = "" then none else some v
              | none => none
            let ticker := match hm.ticker with
              | some ti => let v := jsTrim (cellAt row ti); if v = "" then none else some v
              | none => none
            .ok { assetType := normalizeAssetType assetType
                  assetCategory := if assetCategory = "" then none else some assetCategory
                  instrument := instrument
                  isin := isin
                  ticker := ticker
                  targetPercentage := p } warning

/-- Process the data rows of the Excel sheet, threading the 0-based sheet index. -/
def excelRowsOut (hm : ExcelHeaderMap) : ℕ → List (List String) → List (RowOut ExcelTargetRow)
  | _, [] => []
  | i, r :: rs => excelProcessRow hm i r :: excelRowsOut hm (i + 1) rs

/-- The `parseTargetExcel` function from the decoded sheet onward. -/
def parseTargetExcelRows (data : List (List String)) : ParsedTargetsResult :=
  if data.length < 2 then
    { targets := [], warnings := []
      errors := ["Excel file must have at least a header row and one data row"] }
  else
    match findExcelHeader data with
    | none =>
        { targets := [], warnings := []
          errors := ["Could not find header row with required columns (Asset Type, %)"] }
    | some (hIdx, hm) =>
        { targets := (excelRowsOut hm (hIdx + 1) (data.drop (hIdx + 1))).filterMap rowOutTarget
          warnings :=
            (excelRowsOut hm (hIdx + 1) (data.drop (hIdx + 1))).filterMap rowOutWarning ++
              (totalPctWarning
                (((excelRowsOut hm (hIdx + 1) (data.drop (hIdx + 1))).filterMap
                    rowOutTarget).foldl (fun s t => s + t.targetPercentage) 0)).toList
          errors := (excelRowsOut hm (hIdx + 1) (data.drop (hIdx + 1))).filterMap rowOutErr }

/-- The `parseCsvLine` helper: split on commas outside double quotes, with
`""` as an escaped quote inside a quoted field. -/
def parseCsvChars : List Char → String → Bool → List String
  | [], current, _ => [current]
  | '"' :: '"' :: rest2, current, true => parseCsvChars rest2 (current.push '"') true
  | '"' :: rest, current, true => parseCsvChars rest current false
  | '"' :: rest, current, false => parseCsvChars rest current true
  | ',' :: rest, current, true => parseCsvChars rest (current.push ',') true
  | ',' :: rest, current, false => current :: parseCsvChars rest "" false
  | c :: rest, current, inQuotes => parseCsvChars rest (current.push c) inQuotes

/-- JavaScript `parseCsvLine(line)`. -/
def parseCsvLine (line : String) : List String := parseCsvChars line.data "" false

/-- Header-column indices found by the CSV parser. -/
structure CsvHeaderMap where
  assetType : Option ℕ := none
  assetCategory : Option ℕ := none
  instrument : Option ℕ := none
  isin : Option ℕ := none
  mainTicker : Option ℕ := none
  percentage : Option ℕ := none
  otherTickers : Option ℕ := none
deriving Repr, DecidableEq

/-- One step of the CSV header `forEach`: the first matching branch of the
if/else-if chain claims the column. -/
def csvHeaderStep (hm : CsvHeaderMap) (idx : ℕ) (header : String) : CsvHeaderMap :=
  let n := jsTrim (jsToLower header)
  if strIncludes n "asset type" then { hm with assetType := some idx }
  else if strIncludes n "asset category" then { hm with assetCategory := some idx }
  else if strIncludes n "instrument" then { hm with instrument := some idx }
  else if strIncludes n "isin" then { hm with isin := some idx }
  else if strIncludes n "main ticker" then { hm with mainTicker := some idx }
  else if strIncludes n "ticker" ∧ strIncludes n "other" = false ∧ strIncludes n "main" = false
  then (if hm.mainTicker = none then { hm with mainTicker := some idx } else hm)
  else if strIncludes n "%" || strIncludes n "percent" then { hm with percentage := some idx }
  else if strIncludes n "other ticker" then { hm with otherTickers := some idx }
  else hm

/-- Fold `csvHeaderStep` over the header cells with their indices. -/
def csvHeaderAux : CsvHeaderMap → ℕ → List String → CsvHeaderMap
  | hm, _, [] => hm
  | hm, i, h :: t => csvHeaderAux (csvHeaderStep hm i h) (i + 1) t

/-- Field access `row[oi]?.trim() || undefined` for an optional column. -/
def csvOptField (row : List String) (oi : Option ℕ) : Option String :=
  match oi with
  | some i =>
      match row.get? i with
      | some c => let v := jsTrim c; if v = "" then none else some v
      | none => none
  | none => none

/-- Asset-type field `row[idx]?.trim() || ''`. -/
def csvAssetTypeOf (hm : CsvHeaderMap) (row : List String) : String :=
  match hm.assetType with
  | some i => jsTrim (cellAt row i)
  | none => ""

/-- Raw percentage string `row[idx]?.replace(/%/g, '').trim() || '0'`. -/
def csvRawPct (hm : CsvHeaderMap) (row : List String) : String :=
  match hm.percentage with
  | some i =>
      match row.get? i with
      | some c => let v := jsTrim (removeAllCh '%' c); if v = "" then "0" else v
      | none => "0"
  | none => "0"

/-- Parsed-and-normalised percentage of a CSV row (fractions scaled by 100). -/
def csvPct (hm : CsvHeaderMap) (row : List String) : Option ℚ :=
  (jsParseFloat (csvRawPct hm row)).map (fun p => if 0 < p ∧ p < 1 then p * 100 else p)

/-- The raw percentage cell as interpolated into the error message. -/
def csvPctCellRaw (hm : CsvHeaderMap) (row : List String) : String :=
  match hm.percentage with
  | some i => cellAtU row i
  | none => "undefined"

/-- Other-tickers field: pipe- or comma-separated list, trimmed, empties dropped. -/
def csvOtherTickers (hm : CsvHeaderMap) (row : List String) : List String :=
  match hm.otherTickers with
  | some i =>
      let s := jsTrim (cellAt row i)
      if s ≠ "" then
        ((strSplitP (fun c => c == '|' || c == ',') s).map jsTrim).filter
          (fun t => decide (0 < t.length))
      else []
  | none => []

/-- Body of the CSV parser's data-row loop for the line at 0-based index `i`
within the filtered line list (error strings name row `i + 1`). -/
def csvProcessRow (hm : CsvHeaderMap) (i : ℕ) (line : String) : RowOut CsvTargetRow :=
  if jsTrim line = "" then .skip
  else
    let row := parseCsvLine line
    let assetType := csvAssetTypeOf hm row
    if assetType = "" then .err ("Row " ++ toString (i + 1) ++ ": Missing Asset Type")
    else
      match csvPct hm row with
      | none =>
          .err ("Row " ++ toString (i + 1) ++ ": Invalid percentage (" ++
            csvPctCellRaw hm row ++ ")")
      | some p =>
          if p < 0 ∨ 100 < p then
            .err ("Row " ++ toString (i + 1) ++ ": Invalid percentage (" ++
              csvPctCellRaw hm row ++ ")")
          else if p = 0 then .skip
          else
            let otherTickers := csvOtherTickers hm row
            .ok { assetType := normalizeAssetType assetType
                  assetCategory := csvOptField row hm.assetCategory
                  instrument := csvOptField row hm.instrument
                  isin := csvOptField row hm.isin
                  mainTicker := csvOptField row hm.mainTicker
                  otherTickers := if 0 < otherTickers.length then some otherTickers else none
                  targetPercentage := p } none

/-- Process the CSV data lines, threading the 0-based line index. -/
def csvRowsOut (hm : CsvHeaderMap) : ℕ → List String → List (RowOut CsvTargetRow)
  | _, [] => []
  | i, l :: ls => csvProcessRow hm i l :: csvRowsOut hm (i + 1) ls

/-- The trimmed, non-empty line list of the CSV target file. -/
def csvLinesOf (csvText : String) : List String :=
  ((strSplitP (fun c => c == '\n') csvText).map jsTrim).filter (fun l => l != "")

/-- The header map parsed from the CSV file's first line. -/
def csvHeaderOf (csvText : String) : CsvHeaderMap :=
  csvHeaderAux {} 0 (parseCsvLine ((csvLinesOf csvText).headD ""))

/-- The exported `parseTargetCsv` function. -/
def parseTargetCsv (csvText : String) : ParsedCsvTargetsResult :=
  if (csvLinesOf csvText).length < 2 then
    { targets := [], warnings := []
      errors := ["CSV file must have at least a header row and one data row"] }
  else if (csvHeaderOf csvText).assetType = none ∨ (csvHeaderOf csvText).percentage = none then
    { targets := [], warnings := []
      errors := ["CSV file must contain \"Asset Type\" and \"%\" columns"] }
  else
    { targets := (csvRowsOut (csvHeaderOf csvText) 1
        ((csvLinesOf csvText).drop 1)).filterMap rowOutTarget
      warnings := (totalPctWarning
        (((csvRowsOut (csvHeaderOf csvText) 1
            ((csvLinesOf csvText).drop 1)).filterMap rowOutTarget).foldl
          (fun s t => s + t.targetPercentage) 0)).toList
      errors := (csvRowsOut (csvHeaderOf csvText) 1
        ((csvLinesOf csvText).drop 1)).filterMap rowOutErr }

/-! ### PDF statement parser: vertical "Open Positions" sub-layout
(src/parsers/ibStatementParser.ts, `parseOpenPositions`)

The vertical-format branch is a line-cursor loop over the section's lines.
`verticalStep` is a faithful translation of one iteration of that `while`
loop (filler skipping, symbol-line rejection, section-prefix stripping,
symbol extraction, missing-Code detection, numeric-field parsing, and the
cursor update on each accept/skip path), and `runVertical` iterates it under
explicit fuel.
-/

/-- Parser output record (the fields the vertical branch fills). -/
structure ParsedHolding where
  symbol : String
  quantity : ℚ
  price : ℚ
  value : ℚ
  currency : Option String
deriving Repr, DecidableEq

/-- Regex `/^(Total|Stocks|USD|EUR|GBP|JPY)$/i`. -/
def isCurrencyWord (s : String) : Bool :=
  let l := jsToLower s
  l = "total" || l = "stocks" || l = "usd" || l = "eur" || l = "gbp" || l = "jpy"

/-- Regex `/[\d,]/` (contains a digit or a comma). -/
def hasDigitOrComma (s : String) : Bool := s.data.any (fun c => isDigitCh c || c == ',')

/-- Regex `/^Total\s+(in|Stocks)/i` as a prefix match. -/
def matchTotalInStocks (s : String) : Bool :=
  let l := (jsToLower s).data
  "total".data.isPrefixOf l ∧
    (let r := l.drop 5
     let r2 := r.dropWhile jsIsSpace
     decide (r.takeWhile jsIsSpace ≠ []) ∧
       ("in".data.isPrefixOf r2 || "stocks".data.isPrefixOf r2))

/-- Regex `/^Total\s+/i` as a prefix match. -/
def matchTotalSp (s : String) : Bool :=
  let l := (jsToLower s).data
  "total".data.isPrefixOf l &&
    (match l.drop 5 with | c :: _ => jsIsSpace c | [] => false)

/-- The filler-skip condition of the inner `while` (blank lines, bare
section/currency words, `Total in …`/`Total Stocks`, and a bare `Total`
followed by a blank line). -/
def isFillerLine (line : String) (nextLine : Option String) : Bool :=
  decide (jsTrim line = "") ||
  (isCurrencyWord line && !(hasDigitOrComma line)) ||
  matchTotalInStocks line ||
  (decide (jsToLower line = "total") &&
    (match nextLine with | some nl => decide (jsTrim nl = "") | none => false))

/-- Advance the cursor over filler lines (structural fuel = remaining lines). -/
def skipFillersAux (lines : List String) : ℕ → ℕ → ℕ
  | 0, i => i
  | fuel + 1, i =>
      match lines.get? i with
      | none => i
      | some l => if isFillerLine l (lines.get? (i + 1)) then skipFillersAux lines fuel (i + 1) else i

/-- The inner filler-skip `while` loop. -/
def skipFillers (lines : List String) (i : ℕ) : ℕ := skipFillersAux lines (lines.length - i) i

/-- Regex test `/[A-Z]{2,6}$/` (at least two trailing uppercase letters). -/
def hasUpper2Suffix (s : String) : Bool :=
  match s.data.reverse with
  | a :: b :: _ => isUpperCh a ∧ isUpperCh b
  | _ => false

/-- First symbol-line rejection test: starts with a digit or `-`, contains `.`
or `,` without an uppercase suffix, or is longer than 20 characters. -/
def symbolLineReject1 (s : String) : Bool :=
  (match s.data with | c :: _ => isDigitCh c || c == '-' | [] => false) ||
  (strIncludes s "." ∧ hasUpper2Suffix s = false) ||
  (strIncludes s "," ∧ hasUpper2Suffix s = false) ||
  decide (20 < s.length)

/-- Second symbol-line rejection test: bare section words, `Total …`, or `SY`. -/
def symbolLineReject2 (s : String) : Bool :=
  (let l := jsToLower s
   l = "stocks" || l = "total" || l = "usd" || l = "eur" || l = "gbp" || l = "jpy" || l = "code") ||
  matchTotalSp s ||
  s = "SY"

/-- The `sectionPrefixes` table (prefix, currency). -/
def sectPrefList : List (String × Option String) :=
  [("StocksEUR", some "EUR"), ("Stocks", none), ("USD", some "USD"),
   ("EUR", some "EUR"), ("GBP", some "GBP"), ("JPY", some "JPY")]

/-- Strip the first matching section prefix and extract its currency. -/
def stripSectPrefAux : List (String × Option String) → String → String × Option String
  | [], s => (s, none)
  | (pre, cur) :: rest, s =>
      if strHasPre s pre then (⟨s.data.drop pre.length⟩, cur) else stripSectPrefAux rest s

/-- Section-prefix stripping of the symbol line. -/
def stripSectPref (s : String) : String × Option String := stripSectPrefAux sectPrefList s

/-- The last `n` characters of a string. -/
def lastN (s : String) (n : ℕ) : List Char := (s.data.reverse.take n).reverse

/-- Regex `([A-Z0-9]{n})$` plus the `/[A-Z]/` letter test on the match. -/
def symbolOfLen (s : String) (n : ℕ) : Option String :=
  let tl := lastN s n
  if tl.length = n ∧ tl.all isUpperAlnumCh ∧ tl.any isUpperCh then some ⟨tl⟩ else none

/-- Symbol extraction: suffix lengths 5 down to 1. -/
def extractSymbol (cleaned : String) : Option String :=
  match symbolOfLen cleaned 5 with
  | some s => some s
  | none => match symbolOfLen cleaned 4 with
    | some s => some s
    | none => match symbolOfLen cleaned 3 with
      | some s => some s
      | none => match symbolOfLen cleaned 2 with
        | some s => some s
        | none => symbolOfLen cleaned 1

/-- Symbol extraction with the whole-line fallback
(`/^[A-Z0-9]+$/` and length between 1 and 6). -/
def extractSymbolOrLine (cleaned : String) : Option String :=
  match extractSymbol cleaned with
  | some s => some s
  | none =>
      if 1 ≤ cleaned.length ∧ cleaned.length ≤ 6 ∧ cleaned.data.all isUpperAlnumCh
      then some cleaned
      else none

/-- Regex `/^[\d,]+\.?\d*$/` (a "pure number" in the Code-detection test). -/
def isPureNumber (s : String) : Bool :=
  let cls := fun c => isDigitCh c || c == ','
  let a := s.data.takeWhile cls
  let r := s.data.dropWhile cls
  decide (a ≠ []) ∧ (decide (r = []) || (match r with | '.' :: d => d.all isDigitCh | _ => false))

/-- Does the line at the expected Code position look like the next row's
symbol instead (`^[A-Z0-9]{1,6}$`, not `SY`, not `Code`, not a pure number)? -/
def looksLikeNextSymbol (potentialCode : String) : Bool :=
  decide (potentialCode ≠ "") ∧
  decide (1 ≤ potentialCode.length) ∧ decide (potentialCode.length ≤ 6) ∧
  potentialCode.data.all isUpperAlnumCh ∧
  decide (potentialCode ≠ "SY") ∧ decide (potentialCode ≠ "Code") ∧
  isPureNumber potentialCode = false

/-- Regex `/^[A-Z]{2,6}$/` (the value-loop's next-symbol break test). -/
def isAlpha2to6 (line : String) : Bool :=
  decide (2 ≤ line.length) ∧ decide (line.length ≤ 6) ∧ line.data.all isUpperCh

/-- Regex `/\d/`. -/
def hasDigit (s : String) : Bool := s.data.any isDigitCh

/-- Parenthesised negative: `(x)` becomes `-x`. -/
def parenNeg (s : String) : String :=
  match s.data with
  | '(' :: rest =>
      if rest ≠ [] ∧ rest.getLast? = some ')' then ⟨'-' :: rest.dropLast⟩ else s
  | _ => s

/-- The numeric-field loop over the row's data lines: stop at a line that
looks like the next symbol, strip commas, decode parenthesised negatives,
keep the values `parseFloat` accepts. -/
def parseRowValues : List String → List ℚ
  | [] => []
  | line :: rest =>
      if isAlpha2to6 line ∧ hasDigit line = false then []
      else
        match jsParseFloat (parenNeg (removeAllCh ',' line)) with
        | some v => v :: parseRowValues rest
        | none => parseRowValues rest

/-- Outcome of one iteration of the vertical-format `while` loop: the loop
exits (`done`), or continues at cursor `next` having produced an optional
holding. -/
inductive VStep
  | done
  | step (next : ℕ) (produced : Option ParsedHolding)
deriving Repr, DecidableEq

/-- One iteration of the vertical-format loop starting at cursor `i0`. -/
def verticalStep (lines : List String) (i0 : ℕ) : VStep :=
  let i := skipFillers lines i0
  match lines.get? i with
  | none => .done
  | some rawLine =>
      let symbolLine := jsTrim rawLine
      if symbolLineReject1 symbolLine then .step (i + 1) none
      else if symbolLineReject2 symbolLine then .step (i + 1) none
      else if lines.length < i + 9 then .done
      else
        let sp := stripSectPref symbolLine
        match extractSymbolOrLine sp.1 with
        | none => .step (i + 1) none
        | some symbol =>
            let codeIndex := i + 8
            let codeMissing :=
              match lines.get? codeIndex with
              | some cl => looksLikeNextSymbol (jsTrim cl)
              | none => false
            let dataEnd := if codeMissing then codeIndex else i + 9
            let rowLines := (lines.drop (i + 1)).take (dataEnd - (i + 1))
            let values := parseRowValues rowLines
            let actualRowSize := if codeMissing then 8 else 9
            if values.length < 6 then .step (i + actualRowSize) none
            else
              let quantity := values.getD 0 0
              let price := values.getD 4 0
              let v5 := values.getD 5 0
              let value := if v5 = 0 then quantity * price else v5
              if quantity ≤ 0 ∨ price ≤ 0 then
                .step i none
              else
                .step (i + actualRowSize)
                  (some { symbol := symbol, quantity := quantity, price := price,
                          value := value, currency := sp.2 })

/-- Iterate `verticalStep` under explicit fuel; `none` means the fuel ran out
with the loop still running. -/
def runVertical (lines : List String) : ℕ → ℕ → List ParsedHolding → Option (List ParsedHolding)
  | 0, _, _ => none
  | fuel + 1, i, acc =>
      match verticalStep lines i with
      | .done => some acc.reverse
      | .step next produced =>
          runVertical lines fuel next
            (match produced with | some h => h :: acc | none => acc)

/-! ## Supporting lemmas -/

theorem alGet_alSet_self {α : Type} (m : List (String × α)) (k : String) (v : α) :
    alGet (alSet m k v) k = some v := by
  induction m with
  | nil => simp [alSet, alGet]
  | cons p rest ih =>
      obtain ⟨k2, w⟩ := p
      by_cases h : k2 = k
      · simp [alSet, h, alGet]
      · simp [alSet, h, alGet, ih]

theorem alGet_alSet_ne {α : Type} (m : List (String × α)) (k k2 : String) (v : α)
    (hne : k ≠ k2) : alGet (alSet m k v) k2 = alGet m k2 := by
  induction m with
  | nil => simp [alSet, alGet, hne]
  | cons p rest ih =>
      obtain ⟨k3, w⟩ := p
      by_cases h : k3 = k
      · subst h
        have : ¬(k3 = k2) := hne
        simp [alSet, alGet, this]
      · by_cases h2 : k3 = k2
        · subst h2
          simp [alSet, alGet, h]
        · simp [alSet, h, alGet, h2, ih]

theorem alGet_mem {α : Type} (m : List (String × α)) (k : String) (v : α)
    (h : alGet m k = some v) : (k, v) ∈ m := by
  induction m with
  | nil => simp [alGet] at h
  | cons p rest ih =>
      obtain ⟨k2, w⟩ := p
      by_cases hk : k2 = k
      · subst hk
        simp [alGet] at h
        subst h
        exact List.mem_cons_self _ _
      · simp [alGet, hk] at h
        exact List.mem_cons_of_mem _ (ih h)

theorem mem_alSet {α : Type} (m : List (String × α)) (k : String) (v : α) :
    ∀ p ∈ alSet m k v, p = (k, v) ∨ p ∈ m := by
  induction m with
  | nil =>
      intro p hp
      simp [alSet] at hp
      left
      exact hp
  | cons q rest ih =>
      obtain ⟨k2, w⟩ := q
      intro p hp
      by_cases h : k2 = k
      · subst h
        simp [alSet] at hp
        rcases hp with h1 | h1
        · left; simp [h1]
        · right; exact List.mem_cons_of_mem _ h1
      · simp [alSet, h] at hp
        rcases hp with h1 | h1
        · right; simp [h1]
        · rcases ih p h1 with h2 | h2
          · left; exact h2
          · right; exact List.mem_cons_of_mem _ h2

theorem mem_insertBy {α : Type} (le : α → α → Bool) (x a : α) (l : List α) :
    a ∈ insertBy le x l ↔ a = x ∨ a ∈ l := by
  induction l with
  | nil => simp [insertBy]
  | cons y ys ih =>
      by_cases h : le y x = true
      · simp [insertBy, h, ih]
        tauto
      · simp [insertBy, h]

theorem mem_sortBy {α : Type} (le : α → α → Bool) (a : α) (l : List α) :
    a ∈ sortBy le l ↔ a ∈ l := by
  suffices h : ∀ (l acc : List α),
      (a ∈ l.foldl (fun acc x => insertBy le x acc) acc ↔ a ∈ acc ∨ a ∈ l) by
    simpa [sortBy] using h l []
  intro l
  induction l with
  | nil => intro acc; simp
  | cons x xs ih =>
      intro acc
      simp only [List.foldl]
      rw [ih]
      simp [mem_insertBy]
      tauto

theorem foldl_add_nonneg {β : Type} (f : β → ℚ) :
    ∀ (l : List β) (init : ℚ), 0 ≤ init → (∀ x ∈ l, 0 ≤ f x) →
      0 ≤ l.foldl (fun s x => s + f x) init := by
  intro l
  induction l with
  | nil => intro init h0 _; simpa using h0
  | cons x xs ih =>
      intro init h0 h
      simp only [List.foldl]
      exact ih (init + f x)
        (by have hx := h x (List.mem_cons_self x xs); linarith)
        (fun y hy => h y (List.mem_cons_of_mem x hy))

theorem mem_foldl_tickerAllocStep (symbolMappings : List (String × String)) (tv : ℚ)
    (Q : Holding → Prop) :
    ∀ (hs : List Holding) (m0 : List (String × TickerAlloc)),
      (∀ p ∈ m0, Q p.2.holding) →
      (∀ h ∈ hs, jsToUpper h.symbol ≠ "CASH" → Q h) →
      ∀ p ∈ hs.foldl (tickerAllocStep symbolMappings tv) m0, Q p.2.holding := by
  intro hs
  induction hs with
  | nil => intro m0 hm _ p hp; exact hm p hp
  | cons h t ih =>
      intro m0 hm hhs p hp
      simp only [List.foldl] at hp
      refine ih (tickerAllocStep symbolMappings tv m0 h) ?_
        (fun x hx hxc => hhs x (List.mem_cons_of_mem h hx) hxc) p hp
      intro q hq
      by_cases hc : jsToUpper h.symbol = "CASH"
      · rw [tickerAllocStep, if_pos hc] at hq
        exact hm q hq
      · rw [tickerAllocStep, if_neg hc] at hq
        simp only at hq
        cases hget : alGet m0 (effKey symbolMappings h) with
        | some e =>
            rw [hget] at hq
            rcases mem_alSet _ _ _ q hq with h1 | h1
            · have := hm (effKey symbolMappings h, e) (alGet_mem _ _ _ hget)
              rw [h1]
              simpa using this
            · exact hm q h1
        | none =>
            rw [hget] at hq
            rcases mem_alSet _ _ _ q hq with h1 | h1
            · rw [h1]
              exact hhs h (List.mem_cons_self h t) hc
            · exact hm q h1

/-- Every entry of the aggregation map stores a non-`CASH` holding drawn from
the input list. -/
theorem mem_buildTickerAllocations (holdings : List Holding)
    (symbolMappings : List (String × String)) (tv : ℚ) :
    ∀ p ∈ buildTickerAllocations holdings symbolMappings tv,
      p.2.holding ∈ holdings ∧ jsToUpper p.2.holding.symbol ≠ "CASH" := by
  intro p hp
  exact mem_foldl_tickerAllocStep symbolMappings tv
    (fun hh => hh ∈ holdings ∧ jsToUpper hh.symbol ≠ "CASH")
    holdings [] (by intro q hq; simp at hq)
    (fun h hh hc => ⟨hh, hc⟩) p hp

/-- The holdings that aggregate under effective symbol `s` (claim-side
formulation used by the aggregation characterisation). -/
def contributors (symbolMappings : List (String × String)) (hs : List Holding)
    (s : String) : List Holding :=
  hs.filter (fun h => !(jsToUpper h.symbol == "CASH") && (effKey symbolMappings h == s))

/-- Characterisation of one aggregated entry: the stored holding is the FIRST
contributing holding, while the allocation is the sum over ALL contributing
holdings. -/
theorem alGet_foldl_tickerAllocStep (symbolMappings : List (String × String)) (tv : ℚ) :
    ∀ (hs : List Holding) (m0 : List (String × TickerAlloc)) (s : String),
      alGet (hs.foldl (tickerAllocStep symbolMappings tv) m0) s =
        match alGet m0 s, contributors symbolMappings hs s with
        | none, [] => none
        | none, h0 :: rest =>
            some { holding := h0, allocation := ((h0 :: rest).map (allocPct tv)).sum,
                   mappedSymbol := effMapped symbolMappings h0 }
        | some e, cs => some { e with allocation := e.allocation + (cs.map (allocPct tv)).sum } := by
  intro hs
  induction hs with
  | nil =>
      intro m0 s
      simp only [List.foldl, contributors, List.filter_nil]
      cases h : alGet m0 s with
      | none => simp
      | some e => cases e; simp
  | cons h t ih =>
      intro m0 s
      simp only [List.foldl]
      rw [ih]
      by_cases hc : jsToUpper h.symbol = "CASH"
      · have hstep : tickerAllocStep symbolMappings tv m0 h = m0 := by
          rw [tickerAllocStep, if_pos hc]
        have hcon : contributors symbolMappings (h :: t) s = contributors symbolMappings t s := by
          simp [contributors, hc]
        rw [hstep, hcon]
      · by_cases hk : effKey symbolMappings h = s
        · have hcon : contributors symbolMappings (h :: t) s =
              h :: contributors symbolMappings t s := by
            simp [contributors, hc, hk]
          rw [hcon]
          cases hget : alGet m0 s with
          | none =>
              have hstep : alGet (tickerAllocStep symbolMappings tv m0 h) s =
                  some { holding := h, allocation := allocPct tv h,
                         mappedSymbol := effMapped symbolMappings h } := by
                rw [tickerAllocStep, if_neg hc]
                simp only
                rw [hk, hget]
                exact alGet_alSet_self m0 s _
              rw [hstep]
              simp
          | some e =>
              have hstep : alGet (tickerAllocStep symbolMappings tv m0 h) s =
                  some { e with allocation := e.allocation + allocPct tv h } := by
                rw [tickerAllocStep, if_neg hc]
                simp only
                rw [hk, hget]
                exact alGet_alSet_self m0 s _
              rw [hstep]
              simp [add_assoc]
        · have hstep : alGet (tickerAllocStep symbolMappings tv m0 h) s = alGet m0 s := by
            rw [tickerAllocStep, if_neg hc]
            simp only
            cases hget : alGet m0 (effKey symbolMappings h) with
            | some e => exact alGet_alSet_ne m0 _ s _ hk
            | none => exact alGet_alSet_ne m0 _ s _ hk
          have hcon : contributors symbolMappings (h :: t) s = contributors symbolMappings t s := by
            simp [contributors, hc, hk]
          rw [hstep, hcon]

/-- The asset status computed for an aggregated entry is in the plan's
`allAssets`. -/
theorem processEntry_asset_mem (holdings : List Holding) (targets : List TargetAllocation)
    (tv tol : ℚ) (symbolMappings : List (String × String)) (s : String) (e : TickerAlloc)
    (hmem : (s, e) ∈ buildTickerAllocations holdings symbolMappings tv) :
    (processEntry (buildTargetMaps targets).1 (buildTargetMaps targets).2 tv tol s e).1 ∈
      (calculateRebalancing holdings targets tv tol symbolMappings).allAssets := by
  simp only [calculateRebalancing, crOuts]
  rw [mem_sortBy]
  exact List.mem_map_of_mem _
    (List.mem_map_of_mem
      (fun p => processEntry (buildTargetMaps targets).1 (buildTargetMaps targets).2 tv tol p.1 p.2)
      hmem)

/-- The action emitted for an aggregated entry is in the plan's `actions`. -/
theorem processEntry_action_mem (holdings : List Holding) (targets : List TargetAllocation)
    (tv tol : ℚ) (symbolMappings : List (String × String)) (s : String) (e : TickerAlloc)
    (a : RebalancingAction)
    (hmem : (s, e) ∈ buildTickerAllocations holdings symbolMappings tv)
    (hact : (processEntry (buildTargetMaps targets).1 (buildTargetMaps targets).2 tv tol s e).2.1 =
      some a) :
    a ∈ (calculateRebalancing holdings targets tv tol symbolMappings).actions := by
  simp only [calculateRebalancing, crOuts]
  rw [mem_sortBy]
  rw [List.mem_filterMap]
  exact ⟨processEntry (buildTargetMaps targets).1 (buildTargetMaps targets).2 tv tol s e,
    List.mem_map_of_mem
      (fun p => processEntry (buildTargetMaps targets).1 (buildTargetMaps targets).2 tv tol p.1 p.2)
      hmem, hact⟩

/-- When no target resolves at all, `resolveTarget` reports
`hasAnyTarget = false` and target percentage `0`. -/
theorem resolveTarget_none (tm cm : List (String × ℚ)) (s : String) (e : TickerAlloc)
    (h1 : alGet tm (e.mappedSymbol.getD s) = none)
    (h2 : alGet tm (jsToUpper e.holding.symbol) = none)
    (h3 : alGet cm (categoryKey e.holding.asset_type e.holding.asset_category) = none) :
    resolveTarget tm cm s e = (false, 0) := by
  simp [resolveTarget, h1, h2, h3]

/-- The truly-unmapped branch of the per-entry computation: status forced to
`needs_sell`, a full-exit SELL action for the stored holding's `value_usd`
with quantity `value_usd / price`, and that amount added to `totalSell`. -/
theorem processEntry_noTarget (tm cm : List (String × ℚ)) (tv tol : ℚ) (s : String)
    (e : TickerAlloc)
    (h1 : alGet tm (e.mappedSymbol.getD s) = none)
    (h2 : alGet tm (jsToUpper e.holding.symbol) = none)
    (h3 : alGet cm (categoryKey e.holding.asset_type e.holding.asset_category) = none)
    (h4 : 0 < e.allocation) :
    (processEntry tm cm tv tol s e).1.status = PosStatus.needs_sell ∧
    (processEntry tm cm tv tol s e).2.1 =
      some { symbol := e.holding.symbol, action := .SELL,
             quantity := e.holding.value_usd / e.holding.price,
             amount := e.holding.value_usd,
             currentAllocation := e.allocation, targetAllocation := 0,
             deviation := e.allocation, status := .needs_sell } ∧
    (processEntry tm cm tv tol s e).2.2.1 = 0 ∧
    (processEntry tm cm tv tol s e).2.2.2 = e.holding.value_usd := by
  have hres := resolveTarget_none tm cm s e h1 h2 h3
  simp [processEntry, hres, h4, lt_irrefl]

/-- Any entry whose resolved target exists (`hasAnyTarget` true) and whose
absolute deviation is within the tolerance is classified `balanced`. -/
theorem processEntry_balanced (tm cm : List (String × ℚ)) (tv tol : ℚ) (s : String)
    (e : TickerAlloc)
    (hhat : (resolveTarget tm cm s e).1 = true)
    (hdev : |e.allocation - (resolveTarget tm cm s e).2| ≤ tol) :
    (processEntry tm cm tv tol s e).1.status = PosStatus.balanced := by
  rcases hres : resolveTarget tm cm s e with ⟨hat, tp⟩
  rw [hres] at hhat hdev
  simp only at hhat hdev
  subst hhat
  by_cases h0 : tp = 0 ∧ e.allocation = 0
  · simp [processEntry, hres, h0]
  · simp [processEntry, hres, h0, hdev]

/-- The amount a single entry adds to `totalBuy` is never negative. -/
theorem processEntry_buy_nonneg (tm cm : List (String × ℚ)) (tv tol : ℚ) (s : String)
    (e : TickerAlloc) : 0 ≤ (processEntry tm cm tv tol s e).2.2.1 := by
  simp only [processEntry]
  split_ifs with hc1 hc2 hc3 <;> (simp; try linarith)

/-- The amount a single entry adds to `totalSell` is never negative provided
the stored holding's `value_usd` is nonnegative. -/
theorem processEntry_sell_nonneg (tm cm : List (String × ℚ)) (tv tol : ℚ) (s : String)
    (e : TickerAlloc) (hval : 0 ≤ e.holding.value_usd) :
    0 ≤ (processEntry tm cm tv tol s e).2.2.2 := by
  simp only [processEntry]
  split_ifs with hc1 hc2 hc3 <;> simp [hval, abs_nonneg]

/-- The symbol reported in an entry's asset status is the stored holding's
symbol. -/
theorem processEntry_asset_symbol (tm cm : List (String × ℚ)) (tv tol : ℚ) (s : String)
    (e : TickerAlloc) :
    (processEntry tm cm tv tol s e).1.symbol = e.holding.symbol := rfl

/-! ## Claim C1

`parseOpenPositions`, vertical sub-layout.  The spec claims the row cursor
always advances (by 8 or 9 lines) after an accepted or a skipped row, so
parsing terminates, and that a single corrupted row costs at most one holding
without disturbing later rows.  The code violates this: the skip path for
`quantity <= 0 || price <= 0` executes `continue` WITHOUT advancing `i`
(src/parsers/ibStatementParser.ts lines 454-457, contrast the `values.length
< 6` path at lines 430-436 which does advance), so the loop re-reads the same
lines forever.  The spec (and the code's own log message
"Skipping ... - invalid qty") clearly intend skip-and-advance. -/

/-- A well-formed vertical section: two complete 9-line rows. -/
def c1GoodLines : List String :=
  ["IWDA", "10", "1", "3", "30", "6.5", "65", "5", "SY",
   "VUSA", "10", "1", "5", "50", "6", "60", "10", "SY"]

/-- The same section with one corrupted row (symbol `BADX`, quantity field
`0`) inserted between the two well-formed rows. -/
def c1BadLines : List String :=
  ["IWDA", "10", "1", "3", "30", "6.5", "65", "5", "SY",
   "BADX", "0", "1", "3", "30", "6", "0", "5", "SY",
   "VUSA", "10", "1", "5", "50", "6", "60", "10", "SY"]

/-- The two holdings parsed from `c1GoodLines`. -/
def c1Iwda : ParsedHolding :=
  { symbol := "IWDA", quantity := 10, price := 13 / 2, value := 65, currency := none }

/-- Second holding of `c1GoodLines`. -/
def c1Vusa : ParsedHolding :=
  { symbol := "VUSA", quantity := 10, price := 6, value := 60, currency := none }

set_option maxRecDepth 2000 in
/-- C1 (code bug): the well-formed section parses to its two holdings, but on
the section with one corrupted row (quantity `0`) the loop iteration at the
corrupted row returns the SAME cursor position (no advance), and consequently
the vertical-format loop never terminates: for every fuel bound the runner
runs out of fuel, instead of skipping the row and losing at most one
holding as the spec states. -/
theorem claim_C1_vertical_cursor_stuck :
    runVertical c1GoodLines 20 0 [] = some [c1Iwda, c1Vusa] ∧
    verticalStep c1BadLines 9 = VStep.step 9 none ∧
    (∀ fuel acc, runVertical c1BadLines fuel 0 acc = none) := by
  refine ⟨by decide, by decide, ?_⟩
  have h0 : verticalStep c1BadLines 0 = VStep.step 9 (some c1Iwda) := by
    decide
  have h9 : verticalStep c1BadLines 9 = VStep.step 9 none := by
    decide
  have key : ∀ fuel acc, runVertical c1BadLines fuel 9 acc = none := by
    intro fuel
    induction fuel with
    | zero => intro acc; rfl
    | succ n ih =>
        intro acc
        simp only [runVertical, h9]
        exact ih acc
  intro fuel acc
  cases fuel with
  | zero => rfl
  | succ n =>
      simp only [runVertical, h0]
      exact key n _

/-! ## Claim C2 -/

/-- C2: for every aggregated entry whose effective symbol has no ticker-level
target (neither under the effective symbol nor under the original holding
symbol) and no category-level target, and whose current allocation is
positive, the reported status is `needs_sell` whatever the tolerance, and a
SELL action is emitted for the entire current value with
`quantity = value / price`. -/
theorem claim_C2_forced_full_exit (holdings : List Holding) (targets : List TargetAllocation)
    (tv tol : ℚ) (symbolMappings : List (String × String)) (s : String) (e : TickerAlloc)
    (hmem : (s, e) ∈ buildTickerAllocations holdings symbolMappings tv)
    (h1 : alGet (buildTargetMaps targets).1 (e.mappedSymbol.getD s) = none)
    (h2 : alGet (buildTargetMaps targets).1 (jsToUpper e.holding.symbol) = none)
    (h3 : alGet (buildTargetMaps targets).2
        (categoryKey e.holding.asset_type e.holding.asset_category) = none)
    (h4 : 0 < e.allocation) :
    (∃ a ∈ (calculateRebalancing holdings targets tv tol symbolMappings).allAssets,
        a.symbol = e.holding.symbol ∧ a.status = PosStatus.needs_sell) ∧
    (∃ act ∈ (calculateRebalancing holdings targets tv tol symbolMappings).actions,
        act.symbol = e.holding.symbol ∧ act.action = ActionKind.SELL ∧
        act.amount = e.holding.value_usd ∧
        act.quantity = e.holding.value_usd / e.holding.price ∧
        act.status = PosStatus.needs_sell) := by
  obtain ⟨hst, hact, hbuy, hsell⟩ := processEntry_noTarget (buildTargetMaps targets).1
    (buildTargetMaps targets).2 tv tol s e h1 h2 h3 h4
  constructor
  · exact ⟨_, processEntry_asset_mem holdings targets tv tol symbolMappings s e hmem,
      processEntry_asset_symbol _ _ tv tol s e, hst⟩
  · refine ⟨_, processEntry_action_mem holdings targets tv tol symbolMappings s e _ hmem hact,
      ?_⟩
    simp

/-- Concrete unmapped holding for the C2 witness. -/
def c2Holding : Holding := { symbol := "XYZ", asset_type := "Stock", price := 5, value_usd := 50 }

/-- Concrete aggregated entry for the C2 witness. -/
def c2Entry : TickerAlloc := { holding := c2Holding, allocation := 50, mappedSymbol := none }

/-- Witness for C2 at a concrete input; the tolerance `99` shows the forced
SELL ignores the tolerance. -/
theorem claim_C2_forced_full_exit_witness :
    (∃ a ∈ (calculateRebalancing [c2Holding] [] 100 99 []).allAssets,
        a.symbol = c2Entry.holding.symbol ∧ a.status = PosStatus.needs_sell) ∧
    (∃ act ∈ (calculateRebalancing [c2Holding] [] 100 99 []).actions,
        act.symbol = c2Entry.holding.symbol ∧ act.action = ActionKind.SELL ∧
        act.amount = c2Entry.holding.value_usd ∧
        act.quantity = c2Entry.holding.value_usd / c2Entry.holding.price ∧
        act.status = PosStatus.needs_sell) :=
  claim_C2_forced_full_exit [c2Holding] [] 100 99 [] "XYZ" c2Entry
    (by decide) (by decide) (by decide) (by decide) (by decide)

/-! ## Claim C3

The conservation identity `netCashNeeded = totalBuy - totalSell` holds for
every input, and so does `0 ≤ totalBuy`; but `0 ≤ totalSell` fails in general:
the forced full-exit SELL adds the raw first-contributor `value_usd` to
`totalSell`, which is negative for a short position whose aggregated
allocation percentage is positive. -/

/-- Negative-value holding used by the C3 counterexample. -/
def c3Holding : Holding := { symbol := "AAA", asset_type := "Stock", price := 1, value_usd := -50 }

/-- C3 counterexample: on a legal input (one holding with negative
`value_usd`, negative total value, no targets) the returned plan has
`totalSell < 0`, refuting `totalSell >= 0` for every input. -/
theorem claim_C3_counterexample :
    (calculateRebalancing [c3Holding] [] (-100) (1 / 100) []).totalSell < 0 := by decide

/-- C3 (amended): for every input, `netCashNeeded = totalBuy - totalSell`
exactly and `totalBuy ≥ 0`; and `totalSell ≥ 0` holds whenever every holding
has nonnegative `value_usd`. -/
theorem claim_C3_conservation (holdings : List Holding) (targets : List TargetAllocation)
    (tv tol : ℚ) (symbolMappings : List (String × String)) :
    (calculateRebalancing holdings targets tv tol symbolMappings).netCashNeeded =
        (calculateRebalancing holdings targets tv tol symbolMappings).totalBuy -
          (calculateRebalancing holdings targets tv tol symbolMappings).totalSell ∧
    0 ≤ (calculateRebalancing holdings targets tv tol symbolMappings).totalBuy ∧
    ((∀ h ∈ holdings, 0 ≤ h.value_usd) →
      0 ≤ (calculateRebalancing holdings targets tv tol symbolMappings).totalSell) := by
  refine ⟨rfl, ?_, ?_⟩
  · simp only [calculateRebalancing, crOuts]
    refine foldl_add_nonneg
      (fun (o : AssetStatus × Option RebalancingAction × ℚ × ℚ) => o.2.2.1) _ 0 le_rfl ?_
    intro o ho
    rcases List.mem_map.mp ho with ⟨p, hp, rfl⟩
    exact processEntry_buy_nonneg _ _ tv tol p.1 p.2
  · intro hpos
    simp only [calculateRebalancing, crOuts]
    refine foldl_add_nonneg
      (fun (o : AssetStatus × Option RebalancingAction × ℚ × ℚ) => o.2.2.2) _ 0 le_rfl ?_
    intro o ho
    rcases List.mem_map.mp ho with ⟨p, hp, rfl⟩
    have hh := mem_buildTickerAllocations holdings symbolMappings tv p hp
    exact processEntry_sell_nonneg _ _ tv tol p.1 p.2 (hpos _ hh.1)

/-- Nonnegative holding for the C3 witness. -/
def c3PosHolding : Holding :=
  { symbol := "BBB", asset_type := "Stock", price := 2, value_usd := 80 }

/-- Witness for the amended C3 at a concrete input, discharging the
nonnegativity hypothesis of the `totalSell` conjunct there. -/
theorem claim_C3_conservation_witness :
    (calculateRebalancing [c3PosHolding] [] 100 (1 / 100) []).netCashNeeded =
        (calculateRebalancing [c3PosHolding] [] 100 (1 / 100) []).totalBuy -
          (calculateRebalancing [c3PosHolding] [] 100 (1 / 100) []).totalSell ∧
    0 ≤ (calculateRebalancing [c3PosHolding] [] 100 (1 / 100) []).totalBuy ∧
    0 ≤ (calculateRebalancing [c3PosHolding] [] 100 (1 / 100) []).totalSell :=
  ⟨(claim_C3_conservation [c3PosHolding] [] 100 (1 / 100) []).1,
   (claim_C3_conservation [c3PosHolding] [] 100 (1 / 100) []).2.1,
   (claim_C3_conservation [c3PosHolding] [] 100 (1 / 100) []).2.2 (by decide)⟩

/-! ## Claim C4

A `CASH` holding (any letter case) is skipped by the aggregation loop, so it
never appears in `allAssets`; but the route computes
`totalValue = Σ value_usd` over ALL holdings, `CASH` rows included
(src/routes/rebalancing.ts line 88, and statement upload inserts a `CASH`
holding row), so cash DOES contribute to the denominator of the allocation
percentages used for deviation. -/

/-- Stored cash row (`symbol = "Cash"`) for the C4 counterexample. -/
def c4Cash : Holding := { symbol := "Cash", asset_type := "Cash", price := 1, value_usd := 100 }

/-- Ordinary holding for the C4 counterexample. -/
def c4Vti : Holding := { symbol := "VTI", asset_type := "Stock", price := 100, value_usd := 100 }

/-- Target used by the C4 counterexample. -/
def c4Target : TargetAllocation :=
  { asset_type := "Stock", symbol := some "VTI", target_percentage := 100 }

/-- C4 counterexample: with the cash row present VTI's reported allocation is
50 percent; dropping the cash row gives 100 percent — the cash value does
contribute to the totalValue against which allocation percentages are
computed, contradicting the claim. -/
theorem claim_C4_counterexample :
    ((rebalancingRoutePlan [c4Cash, c4Vti] [c4Target] (1 / 100) []).allAssets.map
        (fun a => a.currentAllocation)) = [50] ∧
    ((rebalancingRoutePlan [c4Vti] [c4Target] (1 / 100) []).allAssets.map
        (fun a => a.currentAllocation)) = [100] := by decide

/-- C4 (amended): a holding whose symbol upper-cases to `CASH` never appears
in the returned `allAssets` (its value still enters the caller-computed
`totalValue` denominator, as the counterexample shows). -/
theorem claim_C4_cash_excluded (holdings : List Holding) (targets : List TargetAllocation)
    (tol : ℚ) (symbolMappings : List (String × String)) :
    ∀ a ∈ (rebalancingRoutePlan holdings targets tol symbolMappings).allAssets,
      jsToUpper a.symbol ≠ "CASH" := by
  intro a ha
  simp only [rebalancingRoutePlan, calculateRebalancing, crOuts] at ha
  rw [mem_sortBy] at ha
  rcases List.mem_map.mp ha with ⟨o, ho, rfl⟩
  rcases List.mem_map.mp ho with ⟨p, hp, rfl⟩
  have hmem := mem_buildTickerAllocations holdings symbolMappings _ p hp
  rw [processEntry_asset_symbol]
  exact hmem.2

/-- The asset status produced for `c4Vti` in the witness input. -/
def c4VtiAsset : AssetStatus :=
  { symbol := "VTI", currentAllocation := 50, targetAllocation := 100, deviation := -50,
    status := PosStatus.needs_buy, currentValue := 100, targetValue := 200,
    adjustmentNeeded := 100, mappedTargetSymbol := none, assetType := "Stock" }

/-- Witness for the amended C4 at a concrete input. -/
theorem claim_C4_cash_excluded_witness : jsToUpper c4VtiAsset.symbol ≠ "CASH" :=
  claim_C4_cash_excluded [c4Cash, c4Vti] [c4Target] (1 / 100) [] c4VtiAsset (by decide)

/-! ## Claim C5

The tolerance is compared directly against the deviation, which is measured
in percentage points (`currentPct = value/total*100`), so `tolerance = 0.01`
means 0.01 percentage points — NOT 1 percentage point as the claim says.  The
inclusive boundary half of the claim does hold for positions that have a
target. -/

/-- Holding at 11 percent of the portfolio for the C5 counterexample. -/
def c5Holding : Holding := { symbol := "VTI", asset_type := "Stock", price := 10, value_usd := 11 }

/-- Its 10-percent ticker target. -/
def c5Target : TargetAllocation :=
  { asset_type := "Stock", symbol := some "VTI", target_percentage := 10 }

/-- C5 counterexample: with tolerance `0.01` a position holding a target with
deviation exactly 1 percentage point is classified `needs_sell`, not
`balanced` — `0.01` is not "1 percentage point". -/
theorem claim_C5_counterexample :
    ((calculateRebalancing [c5Holding] [c5Target] 100 (1 / 100) []).allAssets.map
        (fun a => (a.deviation, a.status))) = [(1, PosStatus.needs_sell)] := by decide

/-- C5 (amended): the tolerance is an absolute bound in percentage points:
any aggregated entry that resolves to SOME target (ticker- or category-level)
and whose absolute deviation is at most the tolerance — inclusive of exact
equality — is classified `balanced`. -/
theorem claim_C5_tolerance_pp (holdings : List Holding) (targets : List TargetAllocation)
    (tv tol : ℚ) (symbolMappings : List (String × String)) (s : String) (e : TickerAlloc)
    (hmem : (s, e) ∈ buildTickerAllocations holdings symbolMappings tv)
    (hhat : (resolveTarget (buildTargetMaps targets).1 (buildTargetMaps targets).2 s e).1 = true)
    (hdev : |e.allocation -
        (resolveTarget (buildTargetMaps targets).1 (buildTargetMaps targets).2 s e).2| ≤ tol) :
    ∃ a ∈ (calculateRebalancing holdings targets tv tol symbolMappings).allAssets,
      a.symbol = e.holding.symbol ∧ a.status = PosStatus.balanced := by
  exact ⟨_, processEntry_asset_mem holdings targets tv tol symbolMappings s e hmem,
    processEntry_asset_symbol _ _ tv tol s e,
    processEntry_balanced _ _ tv tol s e hhat hdev⟩

/-- Aggregated entry for the C5 witness. -/
def c5Entry : TickerAlloc := { holding := c5Holding, allocation := 11, mappedSymbol := none }

/-- Witness for the amended C5: tolerance `1` (one percentage point) with
deviation exactly 1 — the inclusive boundary — yields `balanced`. -/
theorem claim_C5_tolerance_pp_witness :
    ∃ a ∈ (calculateRebalancing [c5Holding] [c5Target] 100 1 []).allAssets,
      a.symbol = c5Entry.holding.symbol ∧ a.status = PosStatus.balanced :=
  claim_C5_tolerance_pp [c5Holding] [c5Target] 100 1 [] "VTI" c5Entry
    (by decide) (by decide) (by decide)

/-! ## Claim C9

When several holdings resolve to the same effective symbol, only their
allocation percentages are summed; the aggregation map keeps the FIRST
contributing holding, and the reported `currentValue`, the
`targetValue`-vs-`currentValue` comparison (`adjustmentNeeded`), and the
amount and quantity of any emitted action — the forced full-exit SELL
included — are computed from that first holding's `value_usd` and `price`
alone, not from the aggregate. -/

/-- C9: characterisation of the entry for an effective symbol with
contributing holdings `h0 :: rest` (`h0` first in input order): the stored
holding is `h0`, the allocation is the sum over all contributors, and every
downstream dollar amount of that entry derives from `h0` only. -/
theorem claim_C9_first_contributor_values (holdings : List Holding)
    (targets : List TargetAllocation) (tv tol : ℚ)
    (symbolMappings : List (String × String)) (s : String) (h0 : Holding)
    (rest : List Holding)
    (hcon : contributors symbolMappings holdings s = h0 :: rest) :
    ∃ e, alGet (buildTickerAllocations holdings symbolMappings tv) s = some e ∧
      e.holding = h0 ∧
      e.allocation = ((h0 :: rest).map (allocPct tv)).sum ∧
      (processEntry (buildTargetMaps targets).1 (buildTargetMaps targets).2
          tv tol s e).1.currentValue = h0.value_usd ∧
      (processEntry (buildTargetMaps targets).1 (buildTargetMaps targets).2
          tv tol s e).1.adjustmentNeeded =
        (processEntry (buildTargetMaps targets).1 (buildTargetMaps targets).2
          tv tol s e).1.targetValue - h0.value_usd ∧
      (∀ act, (processEntry (buildTargetMaps targets).1 (buildTargetMaps targets).2
          tv tol s e).2.1 = some act →
        act.quantity = act.amount / h0.price ∧
        (act.amount = h0.value_usd ∨
         act.amount = (processEntry (buildTargetMaps targets).1 (buildTargetMaps targets).2
            tv tol s e).1.adjustmentNeeded ∨
         act.amount = |(processEntry (buildTargetMaps targets).1 (buildTargetMaps targets).2
            tv tol s e).1.adjustmentNeeded|)) ∧
      (processEntry (buildTargetMaps targets).1 (buildTargetMaps targets).2 tv tol s e).1 ∈
        (calculateRebalancing holdings targets tv tol symbolMappings).allAssets := by
  have hget := alGet_foldl_tickerAllocStep symbolMappings tv holdings [] s
  rw [hcon] at hget
  simp only [alGet] at hget
  rw [show (holdings.foldl (tickerAllocStep symbolMappings tv) [] : List (String × TickerAlloc)) =
    buildTickerAllocations holdings symbolMappings tv from rfl] at hget
  refine ⟨_, hget, rfl, rfl, rfl, rfl, ?_, ?_⟩
  · intro act hact
    simp only [processEntry] at hact
    split_ifs at hact with hc1 hc2 hc3
    · injection hact with h
      subst h
      exact ⟨rfl, Or.inl rfl⟩
    · injection hact with h
      subst h
      exact ⟨rfl, Or.inr (Or.inl rfl)⟩
    · injection hact with h
      subst h
      exact ⟨rfl, Or.inr (Or.inr rfl)⟩
  · exact processEntry_asset_mem holdings targets tv tol symbolMappings s _
      (alGet_mem _ _ _ hget)

/-- First contributing holding of the C9 witness. -/
def c9H1 : Holding := { symbol := "VWRA", asset_type := "Stock", price := 10, value_usd := 60 }

/-- Second contributing holding of the C9 witness (mapped onto `VWRA`). -/
def c9H2 : Holding := { symbol := "VT", asset_type := "Stock", price := 20, value_usd := 40 }

/-- Witness for C9 at a concrete input with two holdings aggregating under
one effective symbol. -/
theorem claim_C9_first_contributor_values_witness :
    ∃ e, alGet (buildTickerAllocations [c9H1, c9H2] [("VT", "VWRA")] 100) "VWRA" = some e ∧
      e.holding = c9H1 ∧
      e.allocation = (([c9H1, c9H2]).map (allocPct 100)).sum ∧
      (processEntry (buildTargetMaps []).1 (buildTargetMaps []).2
          100 (1 / 100) "VWRA" e).1.currentValue = c9H1.value_usd ∧
      (processEntry (buildTargetMaps []).1 (buildTargetMaps []).2
          100 (1 / 100) "VWRA" e).1.adjustmentNeeded =
        (processEntry (buildTargetMaps []).1 (buildTargetMaps []).2
          100 (1 / 100) "VWRA" e).1.targetValue - c9H1.value_usd ∧
      (∀ act, (processEntry (buildTargetMaps []).1 (buildTargetMaps []).2
          100 (1 / 100) "VWRA" e).2.1 = some act →
        act.quantity = act.amount / c9H1.price ∧
        (act.amount = c9H1.value_usd ∨
         act.amount = (processEntry (buildTargetMaps []).1 (buildTargetMaps []).2
            100 (1 / 100) "VWRA" e).1.adjustmentNeeded ∨
         act.amount = |(processEntry (buildTargetMaps []).1 (buildTargetMaps []).2
            100 (1 / 100) "VWRA" e).1.adjustmentNeeded|)) ∧
      (processEntry (buildTargetMaps []).1 (buildTargetMaps []).2 100 (1 / 100) "VWRA" e).1 ∈
        (calculateRebalancing [c9H1, c9H2] [] 100 (1 / 100) [("VT", "VWRA")]).allAssets :=
  claim_C9_first_contributor_values [c9H1, c9H2] [] 100 (1 / 100) [("VT", "VWRA")]
    "VWRA" c9H1 [c9H2] (by decide)

/-! ## Claim C6 -/

/-- A holding whose per-holding match is `inl m` contributes `m` to the
returned `matched` list. -/
theorem matched_mem (holdings : List Holding) (targets : List TargetAllocation)
    (h : Holding) (m : MatchedHolding) (hmem : h ∈ holdings)
    (hone : matchOneHolding (buildMatcherMaps targets) targets h = Sum.inl m) :
    m ∈ (matchHoldingsToTargets holdings targets).1 := by
  simp only [matchHoldingsToTargets]
  rw [List.mem_filterMap]
  exact ⟨Sum.inl m, hone ▸ List.mem_map_of_mem _ hmem, rfl⟩

/-- C6: the matcher's priority is strict and first-match-wins.  (a) A holding
with an exact case-insensitive symbol match is returned as `exact_symbol`
with that target's id, even when a category-level target also matches its
(asset_type, asset_category); (b) ISIN matching applies only when symbol
matching fails; (c) the category fallback applies only when both fail, and
then the first category target in insertion order wins. -/
theorem claim_C6_matcher_priority (holdings : List Holding) (targets : List TargetAllocation)
    (h : Holding) (hmem : h ∈ holdings) :
    (∀ t ct cts, h.symbol ≠ "" →
      alGet (buildMatcherMaps targets).bySymbol (jsToUpper h.symbol) = some t →
      alGet (buildMatcherMaps targets).byCategory (categoryKey h.asset_type h.asset_category) =
        some (ct :: cts) →
      ∃ m ∈ (matchHoldingsToTargets holdings targets).1,
        m.matchType = MatchType.exact_symbol ∧ m.matchedTargetId = t.id ∧
        m.symbol = h.symbol) ∧
    (∀ t,
      (h.symbol = "" ∨
        alGet (buildMatcherMaps targets).bySymbol (jsToUpper h.symbol) = none) →
      optTruthy h.isin = true →
      alGet (buildMatcherMaps targets).byIsin (jsToUpper (h.isin.getD "")) = some t →
      ∃ m ∈ (matchHoldingsToTargets holdings targets).1,
        m.matchType = MatchType.exact_isin ∧ m.matchedTargetId = t.id ∧
        m.symbol = h.symbol) ∧
    (∀ ct cts,
      (h.symbol = "" ∨
        alGet (buildMatcherMaps targets).bySymbol (jsToUpper h.symbol) = none) →
      (optTruthy h.isin = false ∨
        alGet (buildMatcherMaps targets).byIsin (jsToUpper (h.isin.getD "")) = none) →
      alGet (buildMatcherMaps targets).byCategory (categoryKey h.asset_type h.asset_category) =
        some (ct :: cts) →
      ∃ m ∈ (matchHoldingsToTargets holdings targets).1,
        m.matchType = MatchType.category ∧ m.matchedTargetId = ct.id ∧
        m.symbol = h.symbol) := by
  refine ⟨?_, ?_, ?_⟩
  · intro t ct cts hsym hlook hcat
    have hone : matchOneHolding (buildMatcherMaps targets) targets h =
        Sum.inl { toHolding :=
                    { h with asset_type := t.asset_type,
                             asset_category := jsOrStr t.asset_category h.asset_category }
                  matchedTargetId := t.id
                  matchType := MatchType.exact_symbol } := by
      simp [matchOneHolding, hsym, hlook]
    exact ⟨_, matched_mem holdings targets h _ hmem hone, rfl, rfl, rfl⟩
  · intro t hsymf hisin hlook
    have hone : matchOneHolding (buildMatcherMaps targets) targets h =
        Sum.inl { toHolding :=
                    { h with asset_type := t.asset_type,
                             asset_category := jsOrStr t.asset_category h.asset_category }
                  matchedTargetId := t.id
                  matchType := MatchType.exact_isin } := by
      rcases hsymf with hs | hs
      · simp [matchOneHolding, hs, hisin, hlook]
      · by_cases h0 : h.symbol = ""
        · simp [matchOneHolding, h0, hisin, hlook]
        · simp [matchOneHolding, h0, hs, hisin, hlook]
    exact ⟨_, matched_mem holdings targets h _ hmem hone, rfl, rfl, rfl⟩
  · intro ct cts hsymf hisinf hcat
    have hone : matchOneHolding (buildMatcherMaps targets) targets h =
        Sum.inl { toHolding :=
                    { h with asset_type := ct.asset_type,
                             asset_category := jsOrStr ct.asset_category h.asset_category }
                  matchedTargetId := ct.id
                  matchType := MatchType.category } := by
      have hs1 : (if h.symbol ≠ "" then
          match alGet (buildMatcherMaps targets).bySymbol (jsToUpper h.symbol) with
          | some t => some (t, MatchType.exact_symbol)
          | Option.none => Option.none
        else Option.none) = (Option.none : Option (TargetAllocation × MatchType)) := by
        rcases hsymf with hs | hs
        · simp [hs]
        · by_cases h0 : h.symbol = "" <;> simp [h0, hs]
      have hs2 : (if optTruthy h.isin = true then
          match alGet (buildMatcherMaps targets).byIsin (jsToUpper (h.isin.getD "")) with
          | some t => some (t, MatchType.exact_isin)
          | Option.none => Option.none
        else Option.none) = (Option.none : Option (TargetAllocation × MatchType)) := by
        rcases hisinf with hi | hi
        · simp [hi]
        · by_cases h0 : optTruthy h.isin = true <;> simp [h0, hi]
      simp [matchOneHolding, hs1, hs2, hcat]
    exact ⟨_, matched_mem holdings targets h _ hmem hone, rfl, rfl, rfl⟩

/-- Holding with both a symbol match and a category match, for the C6 witness. -/
def c6Holding : Holding :=
  { symbol := "VTI", asset_type := "Stock", asset_category := some "US Stock market",
    price := 1, value_usd := 1 }

/-- Its ticker-level target. -/
def c6SymTarget : TargetAllocation :=
  { id := some 1, asset_type := "Stock", symbol := some "VTI", target_percentage := 38 }

/-- The category-level target that also matches the holding. -/
def c6CatTarget : TargetAllocation :=
  { id := some 2, asset_type := "Stock", asset_category := some "US Stock market",
    target_percentage := 23 }

/-- Witness for C6: with both targets present the holding is matched
`exact_symbol` to the ticker target, never `category`. -/
theorem claim_C6_matcher_priority_witness :
    ∃ m ∈ (matchHoldingsToTargets [c6Holding] [c6SymTarget, c6CatTarget]).1,
      m.matchType = MatchType.exact_symbol ∧ m.matchedTargetId = c6SymTarget.id ∧
      m.symbol = c6Holding.symbol :=
  (claim_C6_matcher_priority [c6Holding] [c6SymTarget, c6CatTarget] c6Holding
      (by decide)).1 c6SymTarget c6CatTarget [] (by decide) (by decide) (by decide)

/-! ## Claim C7 -/

/-- A validated Excel row stores exactly the parsed-and-normalised
percentage. -/
theorem excelProcessRow_ok_pct (hm : ExcelHeaderMap) (i : ℕ) (row : List String)
    (t : ExcelTargetRow) (w : Option String)
    (hok : excelProcessRow hm i row = RowOut.ok t w) :
    excelPct hm row = some t.targetPercentage := by
  by_cases hb : excelRowBlank row = true
  · simp [excelProcessRow, hb] at hok
  · by_cases ha : jsTrim (cellAt row hm.assetType) = ""
    · simp [excelProcessRow, hb, ha] at hok
    · cases hpct : excelPct hm row with
      | none => simp [excelProcessRow, hb, ha, hpct] at hok
      | some p =>
          by_cases hr : p < 0 ∨ 100 < p
          · simp [excelProcessRow, hb, ha, hpct, hr] at hok
          · by_cases h0 : p = 0
            · simp [excelProcessRow, hb, ha, hpct, hr, h0] at hok
              norm_num at hok
              cases hok
            · simp [excelProcessRow, hb, ha, hpct, hr, h0] at hok
              rw [← hok.1]

/-- A validated CSV row stores exactly the parsed-and-normalised
percentage. -/
theorem csvProcessRow_ok_pct (hm : CsvHeaderMap) (i : ℕ) (line : String)
    (t : CsvTargetRow) (w : Option String)
    (hok : csvProcessRow hm i line = RowOut.ok t w) :
    csvPct hm (parseCsvLine line) = some t.targetPercentage := by
  by_cases hb : jsTrim line = ""
  · simp [csvProcessRow, hb] at hok
  · by_cases ha : csvAssetTypeOf hm (parseCsvLine line) = ""
    · simp [csvProcessRow, hb, ha] at hok
    · cases hpct : csvPct hm (parseCsvLine line) with
      | none => simp [csvProcessRow, hb, ha, hpct] at hok
      | some p =>
          by_cases hr : p < 0 ∨ 100 < p
          · simp [csvProcessRow, hb, ha, hpct, hr] at hok
          · by_cases h0 : p = 0
            · simp [csvProcessRow, hb, ha, hpct, hr, h0] at hok
              norm_num at hok
              cases hok
            · simp [csvProcessRow, hb, ha, hpct, hr, h0] at hok
              rw [← hok.1]

/-- C7: in both target-file parsers, a raw percentage that parses to a number
strictly between 0 and 1 is scaled by 100 before validation, values ≤ 0 and
≥ 1 are left unscaled, and the stored `targetPercentage` of any row that
validates is exactly that normalised value. -/
theorem claim_C7_fraction_scaling (hm : ExcelHeaderMap) (chm : CsvHeaderMap) (i j : ℕ)
    (row : List String) (line : String) (x y : ℚ)
    (hx : jsParseFloat (excelRawPct hm row) = some x)
    (hy : jsParseFloat (csvRawPct chm (parseCsvLine line)) = some y) :
    ((0 < x ∧ x < 1 → excelPct hm row = some (x * 100)) ∧
     ((x ≤ 0 ∨ 1 ≤ x) → excelPct hm row = some x) ∧
     (∀ t w, excelProcessRow hm i row = RowOut.ok t w →
        excelPct hm row = some t.targetPercentage)) ∧
    ((0 < y ∧ y < 1 → csvPct chm (parseCsvLine line) = some (y * 100)) ∧
     ((y ≤ 0 ∨ 1 ≤ y) → csvPct chm (parseCsvLine line) = some y) ∧
     (∀ t w, csvProcessRow chm j line = RowOut.ok t w →
        csvPct chm (parseCsvLine line) = some t.targetPercentage)) := by
  refine ⟨⟨?_, ?_, fun t w hok => excelProcessRow_ok_pct hm i row t w hok⟩,
    ⟨?_, ?_, fun t w hok => csvProcessRow_ok_pct chm j line t w hok⟩⟩
  · intro hx01
    rw [excelPct, hx]
    simp [hx01, mul_comm]
  · intro hout
    rw [excelPct, hx]
    have : ¬(0 < x ∧ x < 1) := by rcases hout with h | h <;> rintro ⟨a, b⟩ <;> linarith
    simp [this]
  · intro hy01
    rw [csvPct, hy]
    simp [hy01, mul_comm]
  · intro hout
    rw [csvPct, hy]
    have : ¬(0 < y ∧ y < 1) := by rcases hout with h | h <;> rintro ⟨a, b⟩ <;> linarith
    simp [this]

/-- Header map of the C7/C8 Excel witness sheet. -/
def c7ExcelHm : ExcelHeaderMap :=
  { assetType := 0, assetCategory := none, instrument := none, isin := none,
    ticker := none, percentage := 1 }

/-- Header map of the C7/C8 CSV witness file. -/
def c7CsvHm : CsvHeaderMap := { assetType := some 0, percentage := some 1 }

/-- Witness for C7 at the spec's own example: cell value `0.05` normalises to
5, and the stored percentage is 5 in both parsers. -/
theorem claim_C7_fraction_scaling_witness :
    (((0 : ℚ) < 1 / 20 ∧ (1 : ℚ) / 20 < 1 →
        excelPct c7ExcelHm ["Shares", "0.05"] = some (1 / 20 * 100)) ∧
     (((1 : ℚ) / 20 ≤ 0 ∨ (1 : ℚ) ≤ 1 / 20) →
        excelPct c7ExcelHm ["Shares", "0.05"] = some (1 / 20)) ∧
     (∀ t w, excelProcessRow c7ExcelHm 1 ["Shares", "0.05"] = RowOut.ok t w →
        excelPct c7ExcelHm ["Shares", "0.05"] = some t.targetPercentage)) ∧
    (((0 : ℚ) < 1 / 20 ∧ (1 : ℚ) / 20 < 1 →
        csvPct c7CsvHm (parseCsvLine "Shares,0.05") = some (1 / 20 * 100)) ∧
     (((1 : ℚ) / 20 ≤ 0 ∨ (1 : ℚ) ≤ 1 / 20) →
        csvPct c7CsvHm (parseCsvLine "Shares,0.05") = some (1 / 20)) ∧
     (∀ t w, csvProcessRow c7CsvHm 1 "Shares,0.05" = RowOut.ok t w →
        csvPct c7CsvHm (parseCsvLine "Shares,0.05") = some t.targetPercentage)) :=
  claim_C7_fraction_scaling c7ExcelHm c7CsvHm 1 1 ["Shares", "0.05"] "Shares,0.05"
    (1 / 20) (1 / 20) (by decide) (by decide)

/-! ## Claim C8

Each non-blank data row with a missing asset type or an unparsable or
out-of-range percentage contributes exactly one error string naming its row
number and no target; each valid row contributes exactly its target; the
batch is never all-or-nothing.  The claim-side predicates and builders below
restate validity and the per-row outputs; the characterisation theorems prove
the parsers' result lists are exactly the corresponding filters. -/

/-- Rows paired with their indices starting at `n` (claim-side helper). -/
def enumFromN {α : Type} : ℕ → List α → List (ℕ × α)
  | _, [] => []
  | n, a :: as => (n, a) :: enumFromN (n + 1) as

/-- Claim-side invalidity of an Excel data row: non-blank with a missing
asset type, a non-numeric percentage, or a percentage outside [0, 100]. -/
def excelRowInvalidB (hm : ExcelHeaderMap) (row : List String) : Bool :=
  !(excelRowBlank row) &&
    ((jsTrim (cellAt row hm.assetType) == "") ||
      (match excelPct hm row with
       | none => true
       | some p => decide (p < 0) || decide (100 < p)))

/-- Claim-side validity of an Excel data row (it yields a target). -/
def excelRowValidB (hm : ExcelHeaderMap) (row : List String) : Bool :=
  !(excelRowBlank row) && (jsTrim (cellAt row hm.assetType) != "") &&
    (match excelPct hm row with
     | none => false
     | some p => decide (0 ≤ p) && decide (p ≤ 100) && decide (p ≠ 0))

/-- The single error string of an invalid Excel row at sheet index `i` — it
names row `i + 1`. -/
def excelRowError (hm : ExcelHeaderMap) (i : ℕ) (row : List String) : String :=
  "Row " ++ toString (i + 1) ++
    (if jsTrim (cellAt row hm.assetType) = "" then ": Missing Asset Type"
     else ": Invalid percentage (" ++ cellAtU row hm.percentage ++ ")")

/-- The target a valid Excel row yields (claim-side restatement of the `ok`
branch). -/
def excelTargetOf (hm : ExcelHeaderMap) (row : List String) : ExcelTargetRow :=
  let assetType := jsTrim (cellAt row hm.assetType)
  let assetCategory := match hm.assetCategory with
    | some ci => jsTrim (cellAt row ci)
    | none => ""
  let instrument := match hm.instrument with
    | some ii => jsTrim (cellAt row ii)
    | none => ""
  let isin := match hm.isin with
    | some ii => let v := jsTrim (cellAt row ii); if v = "" then none else some v
    | none => none
  let ticker := match hm.ticker with
    | some ti => let v := jsTrim (cellAt row ti); if v = "" then none else some v
    | none => none
  { assetType := normalizeAssetType assetType
    assetCategory := if assetCategory = "" then none else some assetCategory
    instrument := instrument
    isin := isin
    ticker := ticker
    targetPercentage := (excelPct hm row).getD 0 }

/-- One Excel row yields exactly one error precisely when it is invalid, and
that error names its row number. -/
theorem excelProcessRow_err_eq (hm : ExcelHeaderMap) (i : ℕ) (row : List String) :
    rowOutErr (excelProcessRow hm i row) =
      if excelRowInvalidB hm row = true then some (excelRowError hm i row) else none := by
  by_cases hb : excelRowBlank row = true
  · simp [excelProcessRow, excelRowInvalidB, hb, rowOutErr]
  · by_cases ha : jsTrim (cellAt row hm.assetType) = ""
    · simp [excelProcessRow, excelRowInvalidB, excelRowError, hb, ha, rowOutErr]
    · cases hpct : excelPct hm row with
      | none =>
          simp [excelProcessRow, excelRowInvalidB, excelRowError, hb, ha, hpct, rowOutErr,
            String.append_assoc]
      | some p =>
          by_cases hr : p < 0 ∨ 100 < p
          · have : (decide (p < 0) || decide (100 < p)) = true := by
              rcases hr with h | h <;> simp [h]
            simp [excelProcessRow, excelRowInvalidB, excelRowError, hb, ha, hpct, hr, this,
              rowOutErr, String.append_assoc]
          · have hd : (decide (p < 0) || decide (100 < p)) = false := by
              push_neg at hr
              simp [not_lt.mpr hr.1, not_lt.mpr hr.2]
            by_cases h0 : p = 0
            · simp only [excelProcessRow, excelRowInvalidB, hb, ha, hpct, hd, h0]
              norm_num [rowOutErr, ha]
            · simp [excelProcessRow, excelRowInvalidB, hb, ha, hpct, hr, hd, h0, rowOutErr]

/-- One Excel row yields exactly one target precisely when it is valid. -/
theorem excelProcessRow_target_eq (hm : ExcelHeaderMap) (i : ℕ) (row : List String) :
    rowOutTarget (excelProcessRow hm i row) =
      if excelRowValidB hm row = true then some (excelTargetOf hm row) else none := by
  by_cases hb : excelRowBlank row = true
  · simp [excelProcessRow, excelRowValidB, hb, rowOutTarget]
  · by_cases ha : jsTrim (cellAt row hm.assetType) = ""
    · simp [excelProcessRow, excelRowValidB, hb, ha, rowOutTarget]
    · cases hpct : excelPct hm row with
      | none => simp [excelProcessRow, excelRowValidB, hb, ha, hpct, rowOutTarget]
      | some p =>
          by_cases hr : p < 0 ∨ 100 < p
          · have hns : ¬((0 ≤ p ∧ p ≤ 100) ∧ ¬p = 0) := by
              rintro ⟨⟨hge, hle⟩, -⟩
              rcases hr with h | h <;> linarith
            simp [excelProcessRow, excelRowValidB, hb, ha, hpct, hr, rowOutTarget, hns]
          · have hge : 0 ≤ p := not_lt.mp (fun h => hr (Or.inl h))
            have hle : p ≤ 100 := not_lt.mp (fun h => hr (Or.inr h))
            by_cases h0 : p = 0
            · simp only [excelProcessRow, excelRowValidB, hb, ha, hpct, h0]
              norm_num [rowOutTarget]
            · simp [excelProcessRow, excelRowValidB, excelTargetOf, hb, ha, hpct, hr, hge, hle,
                h0, rowOutTarget]

/-- Errors of the Excel data rows are exactly the invalid rows' messages, in
order, one per invalid row, naming its row number. -/
theorem excelRowsOut_errors (hm : ExcelHeaderMap) :
    ∀ (i : ℕ) (rows : List (List String)),
      (excelRowsOut hm i rows).filterMap rowOutErr =
        ((enumFromN i rows).filter (fun p => excelRowInvalidB hm p.2)).map
          (fun p => excelRowError hm p.1 p.2) := by
  intro i rows
  induction rows generalizing i with
  | nil => simp [excelRowsOut, enumFromN]
  | cons r rs ih =>
      simp only [excelRowsOut, enumFromN, List.filterMap_cons, List.filter_cons]
      rw [excelProcessRow_err_eq]
      by_cases hinv : excelRowInvalidB hm r = true
      · simp [hinv, ih]
      · simp [hinv, ih]

/-- Targets of the Excel data rows are exactly the valid rows' targets, in
order. -/
theorem excelRowsOut_targets (hm : ExcelHeaderMap) :
    ∀ (i : ℕ) (rows : List (List String)),
      (excelRowsOut hm i rows).filterMap rowOutTarget =
        ((enumFromN i rows).filter (fun p => excelRowValidB hm p.2)).map
          (fun p => excelTargetOf hm p.2) := by
  intro i rows
  induction rows generalizing i with
  | nil => simp [excelRowsOut, enumFromN]
  | cons r rs ih =>
      simp only [excelRowsOut, enumFromN, List.filterMap_cons, List.filter_cons]
      rw [excelProcessRow_target_eq]
      by_cases hv : excelRowValidB hm r = true
      · simp [hv, ih]
      · simp [hv, ih]

/-- Claim-side invalidity of a CSV data line. -/
def csvRowInvalidB (hm : CsvHeaderMap) (line : String) : Bool :=
  (jsTrim line != "") &&
    ((csvAssetTypeOf hm (parseCsvLine line) == "") ||
      (match csvPct hm (parseCsvLine line) with
       | none => true
       | some p => decide (p < 0) || decide (100 < p)))

/-- Claim-side validity of a CSV data line. -/
def csvRowValidB (hm : CsvHeaderMap) (line : String) : Bool :=
  (jsTrim line != "") && (csvAssetTypeOf hm (parseCsvLine line) != "") &&
    (match csvPct hm (parseCsvLine line) with
     | none => false
     | some p => decide (0 ≤ p) && decide (p ≤ 100) && decide (p ≠ 0))

/-- The single error string of an invalid CSV line at index `i` — it names
row `i + 1`. -/
def csvRowError (hm : CsvHeaderMap) (i : ℕ) (line : String) : String :=
  "Row " ++ toString (i + 1) ++
    (if csvAssetTypeOf hm (parseCsvLine line) = "" then ": Missing Asset Type"
     else ": Invalid percentage (" ++ csvPctCellRaw hm (parseCsvLine line) ++ ")")

/-- The target a valid CSV line yields. -/
def csvTargetOf (hm : CsvHeaderMap) (line : String) : CsvTargetRow :=
  { assetType := normalizeAssetType (csvAssetTypeOf hm (parseCsvLine line))
    assetCategory := csvOptField (parseCsvLine line) hm.assetCategory
    instrument := csvOptField (parseCsvLine line) hm.instrument
    isin := csvOptField (parseCsvLine line) hm.isin
    mainTicker := csvOptField (parseCsvLine line) hm.mainTicker
    otherTickers := if 0 < (csvOtherTickers hm (parseCsvLine line)).length
      then some (csvOtherTickers hm (parseCsvLine line)) else none
    targetPercentage := (csvPct hm (parseCsvLine line)).getD 0 }

/-- One CSV line yields exactly one error precisely when it is invalid. -/
theorem csvProcessRow_err_eq (hm : CsvHeaderMap) (i : ℕ) (line : String) :
    rowOutErr (csvProcessRow hm i line) =
      if csvRowInvalidB hm line = true then some (csvRowError hm i line) else none := by
  by_cases hb : jsTrim line = ""
  · simp [csvProcessRow, csvRowInvalidB, hb, rowOutErr]
  · by_cases ha : csvAssetTypeOf hm (parseCsvLine line) = ""
    · simp [csvProcessRow, csvRowInvalidB, csvRowError, hb, ha, rowOutErr]
    · cases hpct : csvPct hm (parseCsvLine line) with
      | none =>
          simp [csvProcessRow, csvRowInvalidB, csvRowError, hb, ha, hpct, rowOutErr,
            String.append_assoc]
      | some p =>
          by_cases hr : p < 0 ∨ 100 < p
          · have : (decide (p < 0) || decide (100 < p)) = true := by
              rcases hr with h | h <;> simp [h]
            simp [csvProcessRow, csvRowInvalidB, csvRowError, hb, ha, hpct, hr, this,
              rowOutErr, String.append_assoc]
          · have hd : (decide (p < 0) || decide (100 < p)) = false := by
              push_neg at hr
              simp [not_lt.mpr hr.1, not_lt.mpr hr.2]
            by_cases h0 : p = 0
            · simp only [csvProcessRow, csvRowInvalidB, hb, ha, hpct, hd, h0]
              norm_num [rowOutErr, ha, hb]
            · simp [csvProcessRow, csvRowInvalidB, hb, ha, hpct, hr, hd, h0, rowOutErr]

/-- One CSV line yields exactly one target precisely when it is valid. -/
theorem csvProcessRow_target_eq (hm : CsvHeaderMap) (i : ℕ) (line : String) :
    rowOutTarget (csvProcessRow hm i line) =
      if csvRowValidB hm line = true then some (csvTargetOf hm line) else none := by
  by_cases hb : jsTrim line = ""
  · simp [csvProcessRow, csvRowValidB, hb, rowOutTarget]
  · by_cases ha : csvAssetTypeOf hm (parseCsvLine line) = ""
    · simp [csvProcessRow, csvRowValidB, hb, ha, rowOutTarget]
    · cases hpct : csvPct hm (parseCsvLine line) with
      | none => simp [csvProcessRow, csvRowValidB, hb, ha, hpct, rowOutTarget]
      | some p =>
          by_cases hr : p < 0 ∨ 100 < p
          · have hns : ¬((0 ≤ p ∧ p ≤ 100) ∧ ¬p = 0) := by
              rintro ⟨⟨hge, hle⟩, -⟩
              rcases hr with h | h <;> linarith
            simp [csvProcessRow, csvRowValidB, hb, ha, hpct, hr, rowOutTarget, hns]
          · have hge : 0 ≤ p := not_lt.mp (fun h => hr (Or.inl h))
            have hle : p ≤ 100 := not_lt.mp (fun h => hr (Or.inr h))
            by_cases h0 : p = 0
            · simp only [csvProcessRow, csvRowValidB, hb, ha, hpct, h0]
              norm_num [rowOutTarget]
            · simp [csvProcessRow, csvRowValidB, csvTargetOf, hb, ha, hpct, hr, hge, hle,
                h0, rowOutTarget]

/-- Errors of the CSV data lines are exactly the invalid lines' messages. -/
theorem csvRowsOut_errors (hm : CsvHeaderMap) :
    ∀ (i : ℕ) (lines : List String),
      (csvRowsOut hm i lines).filterMap rowOutErr =
        ((enumFromN i lines).filter (fun p => csvRowInvalidB hm p.2)).map
          (fun p => csvRowError hm p.1 p.2) := by
  intro i lines
  induction lines generalizing i with
  | nil => simp [csvRowsOut, enumFromN]
  | cons l ls ih =>
      simp only [csvRowsOut, enumFromN, List.filterMap_cons, List.filter_cons]
      rw [csvProcessRow_err_eq]
      by_cases hinv : csvRowInvalidB hm l = true
      · simp [hinv, ih]
      · simp [hinv, ih]

/-- Targets of the CSV data lines are exactly the valid lines' targets. -/
theorem csvRowsOut_targets (hm : CsvHeaderMap) :
    ∀ (i : ℕ) (lines : List String),
      (csvRowsOut hm i lines).filterMap rowOutTarget =
        ((enumFromN i lines).filter (fun p => csvRowValidB hm p.2)).map
          (fun p => csvTargetOf hm p.2) := by
  intro i lines
  induction lines generalizing i with
  | nil => simp [csvRowsOut, enumFromN]
  | cons l ls ih =>
      simp only [csvRowsOut, enumFromN, List.filterMap_cons, List.filter_cons]
      rw [csvProcessRow_target_eq]
      by_cases hv : csvRowValidB hm l = true
      · simp [hv, ih]
      · simp [hv, ih]

/-- C8: in both target-file parsers, when a header is found, the returned
errors are exactly one message per invalid data row — each naming its own row
number — and the returned targets are exactly the valid rows' targets, in
order: partial success, never all-or-nothing. -/
theorem claim_C8_partial_success :
    (∀ (data : List (List String)) (hIdx : ℕ) (hm : ExcelHeaderMap),
      ¬data.length < 2 → findExcelHeader data = some (hIdx, hm) →
      (parseTargetExcelRows data).errors =
        ((enumFromN (hIdx + 1) (data.drop (hIdx + 1))).filter
            (fun p => excelRowInvalidB hm p.2)).map (fun p => excelRowError hm p.1 p.2) ∧
      (parseTargetExcelRows data).targets =
        ((enumFromN (hIdx + 1) (data.drop (hIdx + 1))).filter
            (fun p => excelRowValidB hm p.2)).map (fun p => excelTargetOf hm p.2)) ∧
    (∀ csvText : String,
      ¬(csvLinesOf csvText).length < 2 →
      ¬((csvHeaderOf csvText).assetType = none ∨ (csvHeaderOf csvText).percentage = none) →
      (parseTargetCsv csvText).errors =
        ((enumFromN 1 ((csvLinesOf csvText).drop 1)).filter
            (fun p => csvRowInvalidB (csvHeaderOf csvText) p.2)).map
          (fun p => csvRowError (csvHeaderOf csvText) p.1 p.2) ∧
      (parseTargetCsv csvText).targets =
        ((enumFromN 1 ((csvLinesOf csvText).drop 1)).filter
            (fun p => csvRowValidB (csvHeaderOf csvText) p.2)).map
          (fun p => csvTargetOf (csvHeaderOf csvText) p.2)) := by
  constructor
  · intro data hIdx hm hlen hfind
    rw [parseTargetExcelRows, if_neg hlen, hfind]
    exact ⟨excelRowsOut_errors hm _ _, excelRowsOut_targets hm _ _⟩
  · intro csvText hlen hhdr
    rw [parseTargetCsv, if_neg hlen, if_neg hhdr]
    exact ⟨csvRowsOut_errors _ _ _, csvRowsOut_targets _ _ _⟩

/-- C8 witness sheet: header row, then a valid fractional row, a row missing
its asset type, a row with a non-numeric percentage, and a second valid row. -/
def c8ExcelData : List (List String) :=
  [["Asset Type", "%"], ["Shares", "0.05"], ["", "5"], ["Bonds", "abc"], ["Stock", "50"]]

/-- Header map the finder yields on `c8ExcelData`. -/
def c8ExcelHm : ExcelHeaderMap :=
  { assetType := 0, assetCategory := none, instrument := none, isin := none,
    ticker := none, percentage := 1 }

/-- C8 witness CSV file with the same mix of valid and invalid rows. -/
def c8CsvText : String := "Asset Type,%\nShares,0.05\n,5\nBonds,abc\nStock,50"

/-- Witness for C8 on a concrete mixed batch: the two invalid rows yield
exactly the two row-numbered errors, the two valid rows' targets survive, and
the filter characterisation holds as stated. -/
theorem claim_C8_partial_success_witness :
    ((parseTargetExcelRows c8ExcelData).errors =
        ["Row 3: Missing Asset Type", "Row 4: Invalid percentage (abc)"] ∧
      (parseTargetExcelRows c8ExcelData).targets.map (fun t => t.targetPercentage) = [5, 50] ∧
      (parseTargetCsv c8CsvText).errors =
        ["Row 3: Missing Asset Type", "Row 4: Invalid percentage (abc)"] ∧
      (parseTargetCsv c8CsvText).targets.map (fun t => t.targetPercentage) = [5, 50]) ∧
    ((parseTargetExcelRows c8ExcelData).errors =
        ((enumFromN 1 (c8ExcelData.drop 1)).filter
            (fun p => excelRowInvalidB c8ExcelHm p.2)).map
          (fun p => excelRowError c8ExcelHm p.1 p.2) ∧
      (parseTargetExcelRows c8ExcelData).targets =
        ((enumFromN 1 (c8ExcelData.drop 1)).filter
            (fun p => excelRowValidB c8ExcelHm p.2)).map
          (fun p => excelTargetOf c8ExcelHm p.2)) ∧
    ((parseTargetCsv c8CsvText).errors =
        ((enumFromN 1 ((csvLinesOf c8CsvText).drop 1)).filter
            (fun p => csvRowInvalidB (csvHeaderOf c8CsvText) p.2)).map
          (fun p => csvRowError (csvHeaderOf c8CsvText) p.1 p.2) ∧
      (parseTargetCsv c8CsvText).targets =
        ((enumFromN 1 ((csvLinesOf c8CsvText).drop 1)).filter
            (fun p => csvRowValidB (csvHeaderOf c8CsvText) p.2)).map
          (fun p => csvTargetOf (csvHeaderOf c8CsvText) p.2)) :=
  ⟨by decide,
   claim_C8_partial_success.1 c8ExcelData 0 c8ExcelHm (by decide) (by decide),
   claim_C8_partial_success.2 c8CsvText (by decide) (by decide)⟩

/-! ## Claim C10

The zero-percentage skip is checked only after the asset-type and
percentage-validity checks, so a row whose percentage normalises to 0 can
still produce an error (missing asset type): it is not silently excluded in
every case.  The skip is silent only for rows that pass both earlier checks. -/

/-- C10 counterexample: in both parsers a data row whose percentage cell is
exactly 0 but whose asset type is missing produces an error — it is not
silently excluded. -/
theorem claim_C10_counterexample :
    (parseTargetCsv "Asset Type,%\n,0").errors = ["Row 2: Missing Asset Type"] ∧
    (parseTargetCsv "Asset Type,%\n,0").targets = [] ∧
    (parseTargetExcelRows [["Asset Type", "%"], ["", "0"]]).errors =
      ["Row 2: Missing Asset Type"] ∧
    (parseTargetExcelRows [["Asset Type", "%"], ["", "0"]]).targets = [] := by
  refine ⟨?_, ?_, ?_, ?_⟩ <;> decide

/-- Header map of the C10 Excel witness sheet. -/
def c10ExcelHm : ExcelHeaderMap :=
  { assetType := 0, assetCategory := none, instrument := none, isin := none,
    ticker := none, percentage := 1 }

/-- Header map of the C10 CSV witness file. -/
def c10CsvHm : CsvHeaderMap := { assetType := some 0, percentage := some 1 }

/-- C10 (amended): in both parsers, a row that passes the earlier checks — a
non-empty trimmed asset type and a percentage that parses and normalises to
exactly 0 — is silently skipped: no target, no error, no warning. -/
theorem claim_C10_zero_skip :
    (∀ (hm : ExcelHeaderMap) (i : ℕ) (row : List String),
      jsTrim (cellAt row hm.assetType) ≠ "" → excelPct hm row = some 0 →
      excelProcessRow hm i row = RowOut.skip) ∧
    (∀ (hm : CsvHeaderMap) (i : ℕ) (line : String),
      csvAssetTypeOf hm (parseCsvLine line) ≠ "" → csvPct hm (parseCsvLine line) = some 0 →
      csvProcessRow hm i line = RowOut.skip) := by
  constructor
  · intro hm i row ha hpct
    by_cases hb : excelRowBlank row = true
    · simp [excelProcessRow, hb]
    · simp only [excelProcessRow, hb, Bool.false_eq_true, if_false, hpct]
      norm_num [ha]
  · intro hm i line ha hpct
    by_cases hb : jsTrim line = ""
    · simp [csvProcessRow, hb]
    · simp only [csvProcessRow, hb, if_false, hpct]
      norm_num [ha]

/-- Witness for C10: a `Stock,0` row with its asset type present is skipped
by both parsers, producing neither a target nor an error. -/
theorem claim_C10_zero_skip_witness :
    excelProcessRow c10ExcelHm 4 ["Stock", "0"] = RowOut.skip ∧
    csvProcessRow c10CsvHm 4 "Stock,0" = RowOut.skip :=
  ⟨claim_C10_zero_skip.1 c10ExcelHm 4 ["Stock", "0"] (by decide) (by decide),
   claim_C10_zero_skip.2 c10CsvHm 4 "Stock,0" (by decide) (by decide)⟩

end AssetManager
